import Mathlib

/-!
# Verification of the my-bill business-directory server (`server.js`)

A shallow embedding of the directory/places subsystem of `server.js`:
JavaScript strings are modelled as `List Char`, the in-memory TTL caches as
association lists with an explicit clock, the disk-tier place cache as an
association list, and every outbound HTTP call as an oracle carried in an
environment record.  Fallible provider calls live in `Except`, mirroring the
`try`/`catch` structure of the source.

Each definition is translated from the corresponding function in
`server.js`; line references are given in the doc comments.
-/

namespace MyBill

/-- JavaScript strings, modelled as lists of characters. -/
abbrev Str := List Char

/-- The character set matched by JavaScript's `\s` regex class / `trim`
(the common members; exotic Unicode space separators behave the same way
in every function below). -/
def isJsSpace (c : Char) : Bool :=
  c = ' ' || c = '\t' || c = '\n' || c = '\r' ||
  c = Char.ofNat 12 || c = Char.ofNat 11 || c = Char.ofNat 0xa0 ||
  c = Char.ofNat 0x1680 || (0x2000 ≤ c.toNat && c.toNat ≤ 0x200a) ||
  c = Char.ofNat 0x2028 || c = Char.ofNat 0x2029 || c = Char.ofNat 0x202f ||
  c = Char.ofNat 0x205f || c = Char.ofNat 0x3000 || c = Char.ofNat 0xfeff

/-- `String.prototype.trim()`: strip `\s` characters from both ends. -/
def jsTrim (l : Str) : Str :=
  ((l.dropWhile isJsSpace).reverse.dropWhile isJsSpace).reverse

/-- ASCII lowercasing; agrees with JavaScript `toLowerCase()` on the ASCII
and CJK text handled by the classifiers. -/
def asciiLower (l : Str) : Str :=
  l.map (fun c => if 'A' ≤ c && c ≤ 'Z' then Char.ofNat (c.toNat + 32) else c)

/-- Does `pat` occur as a contiguous substring of `hay`?  (Literal regex
alternative matching.) -/
def containsSub (hay pat : Str) : Bool :=
  hay.tails.any (fun t => pat.isPrefixOf t)

/-- Does `hay` contain `pre`, then any amount of `\s`, then `post`?
(Matching of a `a\s*b` regex alternative.) -/
def containsGap (hay pre post : Str) : Bool :=
  hay.tails.any (fun t =>
    pre.isPrefixOf t && post.isPrefixOf ((t.drop pre.length).dropWhile isJsSpace))

end MyBill

namespace MyBill

/-! ## In-memory TTL caches (`server.js` lines 673-683)

`placesCache`, `placeIdCache` and `placePhotoCache` are plain `Map`s from
string keys to `{value, expiresAt}` records.  We model a `Map` as an
association list (`Map.set` replaces in place or appends; `Map.delete`
removes), and `Date.now()` as an explicit millisecond clock `now`. -/

/-- One memory-cache entry: `{ value, expiresAt }`. -/
structure CEntry (α : Type) where
  value : α
  expiresAt : Nat
  deriving Repr, DecidableEq

/-- A `Map` used as a cache. -/
abbrev Cache (α : Type) := List (Str × CEntry α)

/-- `PLACES_CACHE_TTL_MS = 7 * 24 * 60 * 60 * 1000` (line 323). -/
def PLACES_CACHE_TTL_MS : Nat := 7 * 24 * 60 * 60 * 1000

/-- `Map.prototype.get`. -/
def cacheLookup (cache : Cache α) (key : Str) : Option (CEntry α) :=
  match cache with
  | [] => none
  | (k, e) :: rest => if k = key then some e else cacheLookup rest key

/-- `Map.prototype.set`: replace an existing key in place, else append. -/
def cacheSet (cache : Cache α) (key : Str) (e : CEntry α) : Cache α :=
  match cache with
  | [] => [(key, e)]
  | (k, e0) :: rest =>
      if k = key then (k, e) :: rest else (k, e0) :: cacheSet rest key e

/-- `Map.prototype.delete`. -/
def cacheDelete (cache : Cache α) (key : Str) : Cache α :=
  match cache with
  | [] => []
  | (k, e0) :: rest =>
      if k = key then rest else (k, e0) :: cacheDelete rest key

/-- `getCachedValue(cache, key)` (lines 673-679): return the entry's value
when it has not yet expired (`entry.expiresAt > Date.now()`), otherwise
delete the entry and return `null`.  The returned cache is the map after
the read (lazy eviction). -/
def getCachedValue (cache : Cache α) (key : Str) (now : Nat) :
    Option α × Cache α :=
  match cacheLookup cache key with
  | none => (none, cache)
  | some entry =>
      if now < entry.expiresAt then (some entry.value, cache)
      else (none, cacheDelete cache key)

/-- `setCachedValue(cache, key, value)` (lines 681-683). -/
def setCachedValue (cache : Cache α) (key : Str) (value : α) (now : Nat) :
    Cache α :=
  cacheSet cache key ⟨value, now + PLACES_CACHE_TTL_MS⟩

/-- Keys of a cache are pairwise distinct: the invariant every JavaScript
`Map` maintains by construction. -/
def NodupKeys (cache : Cache α) : Prop := (cache.map Prod.fst).Nodup

/-! ## Food-category classifiers

`server.js` contains two keyword classifiers for the restaurant industry:
`classifyFoodCategoryForDirectory` (lines 640-650, used by
`buildDirectoryDataScript`) and the local `classifyFoodCategory` closure
inside `buildCompaniesHtml` (lines 1157-1170).  Both first honour an
explicit trimmed `category` field and otherwise run regex alternations
over the lowercased `name + ' ' + summary` text. -/

/-- A company record from `data/companies.json`.  String-valued fields use
`[]` (the empty string) for JavaScript `undefined`/empty, which `||`
treats identically; `lat`/`lng` are optional numerics (integral values
suffice for every claim here). -/
structure Company where
  slug : Str := []
  name : Str := []
  summary : Str := []
  city : Str := []
  industry : Str := []
  category : Str := []
  placeId : Str := []
  place_id : Str := []
  contact : Str := []
  cover : Str := []
  mapQuery : Str := []
  lat : Option Int := none
  lng : Option Int := none
  deriving Repr, DecidableEq

/-- The classification text: `` `${company.name || ''} ${company.summary || ''}`.toLowerCase() ``. -/
def foodText (c : Company) : Str :=
  asciiLower (c.name ++ [' '] ++ c.summary)

/-- `/火锅|hot\s*pot|hotpot|麻辣烫|串串香/i` (hot-pot keywords). -/
def hotpotHit (t : Str) : Bool :=
  containsSub t "火锅".data || containsGap t "hot".data "pot".data ||
  containsSub t "hotpot".data || containsSub t "麻辣烫".data ||
  containsSub t "串串香".data

/-- `/面馆|拉面|ramen|noodle|noodles|牛肉面|兰州|刀削面|米线/i` (noodle-shop keywords). -/
def noodleHit (t : Str) : Bool :=
  containsSub t "面馆".data || containsSub t "拉面".data ||
  containsSub t "ramen".data || containsSub t "noodle".data ||
  containsSub t "noodles".data || containsSub t "牛肉面".data ||
  containsSub t "兰州".data || containsSub t "刀削面".data ||
  containsSub t "米线".data

/-- `/烧烤|串串|烤肉|bbq|barbecue|烤鱼/i` (barbecue keywords). -/
def bbqHit (t : Str) : Bool :=
  containsSub t "烧烤".data || containsSub t "串串".data ||
  containsSub t "烤肉".data || containsSub t "bbq".data ||
  containsSub t "barbecue".data || containsSub t "烤鱼".data

/-- `/茶|奶茶|饮品|咖啡|coffee|bubble\s*tea/i` (drink keywords, only in the
module-level classifier). -/
def drinkHit (t : Str) : Bool :=
  containsSub t "茶".data || containsSub t "奶茶".data ||
  containsSub t "饮品".data || containsSub t "咖啡".data ||
  containsSub t "coffee".data || containsGap t "bubble".data "tea".data

/-- `/超市|便利|market|grocery/i` (supermarket keywords, only in the
module-level classifier). -/
def marketHit (t : Str) : Bool :=
  containsSub t "超市".data || containsSub t "便利".data ||
  containsSub t "market".data || containsSub t "grocery".data

/-- The `classifyFoodCategory` closure inside `buildCompaniesHtml`
(lines 1162-1170): explicit trimmed category, else hot pot, noodles,
barbecue, defaulting to `中餐`. -/
def classifyFoodCategory (c : Company) : Str :=
  if jsTrim c.category ≠ [] then jsTrim c.category
  else if hotpotHit (foodText c) then "火锅".data
  else if noodleHit (foodText c) then "面馆".data
  else if bbqHit (foodText c) then "烧烤".data
  else "中餐".data

/-- `classifyFoodCategoryForDirectory` (lines 640-650): like
`classifyFoodCategory` but with two extra branches for drinks and
supermarkets before the `中餐` default. -/
def classifyFoodCategoryForDirectory (c : Company) : Str :=
  if jsTrim c.category ≠ [] then jsTrim c.category
  else if hotpotHit (foodText c) then "火锅".data
  else if noodleHit (foodText c) then "面馆".data
  else if bbqHit (foodText c) then "烧烤".data
  else if drinkHit (foodText c) then "饮品".data
  else if marketHit (foodText c) then "超市".data
  else "中餐".data

/-- The scenario company of the specification:
`{slug:"abc", name:"Abc Noodles", industry:"餐饮与服务", summary:"牛肉面"}`. -/
def abcNoodles : Company :=
  { slug := "abc".data, name := "Abc Noodles".data,
    industry := "餐饮与服务".data, summary := "牛肉面".data }

/-! ## The places provider layer (`server.js` lines 312-338, 698-716, 818-962, 1046-1071)

Outbound HTTP calls are modelled by oracles in the environment; a call that
throws (network error, non-OK HTTP status after `fetchJson`'s check, or a
JSON body that fails to parse) is an `Except.error`.  The payload a
provider returns for one place is split into the `place_id`/`title`/`name`
fields the control flow actually reads plus an opaque `payload` of type
`α` carrying all remaining normalized fields (`rating`, `geometry`,
`photos`, ...; `mapSerpPlaceResult`'s per-field coercions never influence
which branch is taken, so the claims hold for every payload). -/

/-- `a || b` on JavaScript strings (empty string is falsy). -/
def jsStrOr (a b : Str) : Str := if a ≠ [] then a else b

/-- `a || b` on JavaScript object values (every object is truthy). -/
def jsOr (a b : Option β) : Option β :=
  match a with
  | some x => some x
  | none => b

/-- First-match lookup in an association list (JavaScript object property
read, insertion-ordered). -/
def alookup (l : List (Str × β)) (key : Str) : Option β :=
  match l with
  | [] => none
  | (k, v) :: rest => if k = key then some v else alookup rest key

/-- JavaScript object property write: replace in place, else append. -/
def aset (l : List (Str × β)) (key : Str) (v : β) : List (Str × β) :=
  match l with
  | [] => [(key, v)]
  | (k, v0) :: rest =>
      if k = key then (k, v) :: rest else (k, v0) :: aset rest key v

/-- A raw result item of a SERP-style provider (`local_results[i]`,
`place_results`): the fields the code reads by name, plus the opaque rest. -/
structure RawPlace (α : Type) where
  place_id : Str := []
  title : Str := []
  name : Str := []
  payload : α
  deriving Repr, DecidableEq

/-- A normalized place-details value as stored in both cache tiers
(`CachedPlace`): the `mapSerpPlaceResult` output or a raw Google
`data.result`. -/
structure CachedPlace (α : Type) where
  place_id : Str := []
  name : Str := []
  payload : α
  deriving Repr, DecidableEq

/-- The JSON body of a SERP-style search/place response: the three result
fields `pickPlaceResult` and the detail branches read. -/
structure SerpData (α : Type) where
  local_results : List (RawPlace α) := []
  place_results : Option (RawPlace α) := none
  place_result : Option (RawPlace α) := none
  deriving Repr, DecidableEq

/-- The JSON body of a Google `findplacefromtext` response; each list
element is one candidate's `place_id` (`''` when the candidate lacks one —
candidate objects themselves are always truthy). -/
structure GoogleFindData where
  status : Str := []
  candidates : List Str := []
  deriving Repr, DecidableEq

/-- The JSON body of a Google place-details response. -/
structure GoogleDetailsData (α : Type) where
  status : Str := []
  result : Option (CachedPlace α) := none
  deriving Repr, DecidableEq

/-- A provider failure: everything `fetchJson`/`fetch` can throw. -/
inductive FetchError where
  | network
  | httpStatus (code : Nat)
  | malformedJson
  | missingKey
  deriving Repr, DecidableEq

/-- `PLACES_PROVIDER` (line 316). -/
inductive Provider where
  | google
  | serpapi
  | searchapi
  deriving Repr, DecidableEq

/-- The outbound HTTP world: one oracle per distinct request shape. -/
structure PlacesOracle (α : Type) where
  /-- `engine=google_maps&type=search&q=...` via SerpApi or SearchApi. -/
  serpSearch : Str → Except FetchError (SerpData α)
  /-- `engine=google_maps&type=place&place_id=...` via SerpApi. -/
  serpPlace : Str → Except FetchError (SerpData α)
  /-- Google `findplacefromtext` with `input=...`. -/
  googleFind : Str → Except FetchError GoogleFindData
  /-- Google `place/details` with `place_id=...`. -/
  googleDetails : Str → Except FetchError (GoogleDetailsData α)

/-- Every provider call fails (outage: network errors, non-OK statuses or
malformed payloads, uniformly). -/
def OracleFails (o : PlacesOracle α) : Prop :=
  (∀ q, ∃ e, o.serpSearch q = Except.error e) ∧
  (∀ p, ∃ e, o.serpPlace p = Except.error e) ∧
  (∀ q, ∃ e, o.googleFind q = Except.error e) ∧
  (∀ p, ∃ e, o.googleDetails p = Except.error e)

/-- The module state of the places layer: configuration (lines 313-321),
the three memory caches (lines 324-326), the disk-tier JSON object
(line 332), the clock, and the HTTP world. -/
structure PlacesEnv (α : Type) where
  apiFlag : Bool
  provider : Provider
  googleKey : Str := []
  serpKey : Str := []
  searchKey : Str := []
  placesCache : Cache (CachedPlace α) := []
  placeIdCache : Cache Str := []
  disk : List (Str × CachedPlace α) := []
  now : Nat := 0
  oracle : PlacesOracle α

/-- `isPlacesApiEnabled()` (lines 333-338). -/
def isPlacesApiEnabled (env : PlacesEnv α) : Bool :=
  if !env.apiFlag then false
  else match env.provider with
  | .serpapi => env.serpKey ≠ []
  | .searchapi => env.searchKey ≠ []
  | .google => env.googleKey ≠ []

/-- The key `fetchSerpApiJson` uses (lines 698-703). -/
def serpApiKey (env : PlacesEnv α) : Str :=
  match env.provider with
  | .searchapi => env.searchKey
  | _ => env.serpKey

/-- `fetchSerpApiJson` for a `type=search` request: throws `Missing …_KEY`
when the key is absent, otherwise performs the HTTP call. -/
def serpSearchCall (env : PlacesEnv α) (q : Str) :
    Except FetchError (SerpData α) :=
  if serpApiKey env = [] then Except.error .missingKey
  else env.oracle.serpSearch q

/-- `fetchSerpApiJson` for a `type=place` request. -/
def serpPlaceCall (env : PlacesEnv α) (pid : Str) :
    Except FetchError (SerpData α) :=
  if serpApiKey env = [] then Except.error .missingKey
  else env.oracle.serpPlace pid

/-- `mapSerpPlaceResult(place, fallbackPlaceId)` (lines 776-816): `null` in,
`null` out; otherwise resolve the `place_id` (`String(place.place_id ||
fallbackPlaceId || '').trim()`, falling back to the raw id when the trim
empties it) and the display name (`place.title || place.name || ''`),
carrying the remaining normalized fields opaquely. -/
def mapSerpPlaceResult (place : Option (RawPlace α)) (fallbackPlaceId : Str) :
    Option (CachedPlace α) :=
  match place with
  | none => none
  | some p =>
      let placeId := jsTrim (jsStrOr p.place_id fallbackPlaceId)
      some { place_id := jsStrOr placeId p.place_id,
             name := jsStrOr p.title p.name,
             payload := p.payload }

/-- `pickPlaceResult(data, placeId)` (lines 867-874). -/
def pickPlaceResult (data : SerpData α) (placeId : Str) :
    Option (RawPlace α) :=
  let localResults := data.local_results
  let placeResults := jsOr data.place_results data.place_result
  let candidates :=
    if !localResults.isEmpty then localResults
    else match placeResults with
    | some p => [p]
    | none => []
  if placeId = [] then candidates.head?
  else
    match candidates.find? (fun item => jsTrim item.place_id = placeId) with
    | some m => some m
    | none => candidates.head?

/-- The cache-miss continuation of `fetchPlaceIdByQuery` (lines 822-865):
the provider branches, each with its own `try`/`catch` whose handler
returns `''`. -/
def fetchPlaceIdByQueryUncached (env : PlacesEnv α) (query : Str) :
    Except FetchError (Str × PlacesEnv α) :=
  match env.provider with
  | .serpapi | .searchapi =>
      (match serpSearchCall env query with
       | .error _ => .ok ([], env)
       | .ok data =>
           let first := jsOr data.local_results.head? data.place_results
           let placeId := jsTrim (match first with
             | some p => p.place_id
             | none => [])
           if placeId ≠ [] then
             .ok (placeId,
                  { env with placeIdCache :=
                      setCachedValue env.placeIdCache query placeId env.now })
           else .ok (placeId, env))
  | .google =>
      if env.googleKey = [] then .ok ([], env)
      else match env.oracle.googleFind query with
      | .error _ => .ok ([], env)
      | .ok data =>
          if data.status ≠ "OK".data ∨ data.candidates.isEmpty then
            .ok ([], env)
          else
            let placeId := jsTrim (data.candidates.head?.getD [])
            if placeId ≠ [] then
              .ok (placeId,
                   { env with placeIdCache :=
                       setCachedValue env.placeIdCache query placeId env.now })
            else .ok (placeId, env)

/-- `fetchPlaceIdByQuery(query)` (lines 818-865): disabled or empty query
short-circuits to `''`; a truthy memory-cache hit is returned; otherwise
the provider is asked and the first candidate's id cached when non-empty.
Errors never escape: every `catch` resolves to `''`. -/
def fetchPlaceIdByQuery (env : PlacesEnv α) (query : Str) :
    Except FetchError (Str × PlacesEnv α) :=
  if !isPlacesApiEnabled env || query.isEmpty then .ok ([], env)
  else
    let looked := getCachedValue env.placeIdCache query env.now
    let env1 := { env with placeIdCache := looked.2 }
    match looked.1 with
    | some s =>
        if s ≠ [] then .ok (s, env1)
        else fetchPlaceIdByQueryUncached env1 query
    | none => fetchPlaceIdByQueryUncached env1 query

/-- Write-through of a successful live fetch (lines 899-901, 920-922,
954-956): `setCachedValue(placesCache, …)`, `diskCache[placeId] = …`,
`savePlaceDetailsDiskCache()` (the file rewrite persists `disk` as is). -/
def storeDetails (env : PlacesEnv α) (placeId : Str) (v : CachedPlace α) :
    PlacesEnv α :=
  { env with
      placesCache := setCachedValue env.placesCache placeId v env.now,
      disk := aset env.disk placeId v }

/-- The live-provider part of `fetchPlaceDetails` (lines 885-962), reached
only when both cache tiers miss.  Each branch's `try`/`catch` resolves
errors to `null`. -/
def fetchPlaceDetailsLive (env : PlacesEnv α) (placeId query : Str) :
    Except FetchError (Option (CachedPlace α) × PlacesEnv α) :=
  match env.provider with
  | .searchapi =>
      let safeQuery := jsTrim query
      if safeQuery = [] then .ok (none, env)
      else match serpSearchCall env safeQuery with
      | .error _ => .ok (none, env)
      | .ok data =>
          match mapSerpPlaceResult (pickPlaceResult data placeId) placeId with
          | none => .ok (none, env)
          | some mapped => .ok (some mapped, storeDetails env placeId mapped)
  | .serpapi =>
      match serpPlaceCall env placeId with
      | .error _ => .ok (none, env)
      | .ok data =>
          let place :=
            jsOr (jsOr data.place_results data.place_result)
              data.local_results.head?
          match mapSerpPlaceResult place placeId with
          | none => .ok (none, env)
          | some mapped => .ok (some mapped, storeDetails env placeId mapped)
  | .google =>
      if env.googleKey = [] then .ok (none, env)
      else match env.oracle.googleDetails placeId with
      | .error _ => .ok (none, env)
      | .ok data =>
          match data.result with
          | none => .ok (none, env)
          | some result =>
              if data.status ≠ "OK".data then .ok (none, env)
              else .ok (some result, storeDetails env placeId result)

/-- `fetchPlaceDetails(placeId, query)` (lines 876-962): disabled or empty
id short-circuits to `null` — the disk tier is *not* consulted in that
case; then memory tier, then disk tier (warming the memory tier), then the
live provider. -/
def fetchPlaceDetails (env : PlacesEnv α) (placeId query : Str) :
    Except FetchError (Option (CachedPlace α) × PlacesEnv α) :=
  if !isPlacesApiEnabled env || placeId.isEmpty then .ok (none, env)
  else
    let looked := getCachedValue env.placesCache placeId env.now
    let env1 := { env with placesCache := looked.2 }
    match looked.1 with
    | some v => .ok (some v, env1)
    | none =>
        match alookup env1.disk placeId with
        | some d =>
            .ok (some d,
                 { env1 with placesCache :=
                     setCachedValue env1.placesCache placeId d env1.now })
        | none => fetchPlaceDetailsLive env1 placeId query

/-- `Object.values(diskCache).find((item) => item?.name === company.name)`
(line 1057). -/
def diskFindByName (disk : List (Str × CachedPlace α)) (cname : Str) :
    Option (CachedPlace α) :=
  (disk.find? (fun kv => kv.2.name = cname)).map (·.2)

/-- The enabled-path tail of `getCompanyPlaceData` (lines 1062-1070). -/
def getCompanyLive (env : PlacesEnv α) (placeId query : Str) :
    Except FetchError (Option (CachedPlace α) × PlacesEnv α) :=
  if placeId = [] then .ok (none, env)
  else do
    let (live, env1) ← fetchPlaceDetails env placeId query
    match live with
    | some v =>
        .ok (some v, { env1 with disk := aset env1.disk placeId v })
    | none => .ok (alookup env1.disk placeId, env1)

/-- `getCompanyPlaceData(company)` (lines 1046-1071): with the API
disabled, serve the disk entry for the company's explicit place id, else a
disk entry whose `name` equals the company's name, else `null`; with the
API enabled, resolve the id (explicit or by query), fetch live, persist a
live result, and fall back to the disk entry. -/
def getCompanyPlaceData (env : PlacesEnv α) (c : Company) :
    Except FetchError (Option (CachedPlace α) × PlacesEnv α) :=
  let explicitPlaceId := jsTrim (jsStrOr c.placeId c.place_id)
  let query := jsTrim (jsStrOr c.mapQuery c.name)
  let cachedByPlaceId :=
    if explicitPlaceId ≠ [] then alookup env.disk explicitPlaceId else none
  if !isPlacesApiEnabled env then
    match cachedByPlaceId with
    | some v => .ok (some v, env)
    | none => .ok (diskFindByName env.disk c.name, env)
  else
    if explicitPlaceId ≠ [] then getCompanyLive env explicitPlaceId query
    else do
      let (pid, env1) ← fetchPlaceIdByQuery env query
      getCompanyLive env1 pid query

/-! ## `POST /api/submit` (`server.js` lines 1745-1769) -/

/-- The request body `{name, email, city, type, details, contact}`; `none`
models an absent (`undefined`) field. -/
structure SubmitBody where
  name : Option Str := none
  email : Option Str := none
  city : Option Str := none
  type : Option Str := none
  details : Option Str := none
  contact : Option Str := none
  deriving Repr, DecidableEq

/-- A row of the `submissions` table as inserted by the handler. -/
structure SubmissionRow where
  name : Str
  email : Str
  city : Option Str
  type : Option Str
  details : Option Str
  contact : Str
  deriving Repr, DecidableEq

/-- The handler's observable outcome: HTTP status, the JSON reply's
`ok`/`message`/`id` fields, and the row inserted (if any). -/
structure SubmitResult where
  status : Nat
  ok : Bool
  message : Option Str := none
  id : Option Nat := none
  inserted : Option SubmissionRow := none
  deriving Repr, DecidableEq

/-- The default visitor label `'网站访客'` (line 1748). -/
def VISITOR_LABEL : Str := "网站访客".data

/-- The `POST /api/submit` handler: derive `safeContact`/`safeName`/
`safeEmail` (lines 1747-1749), reject with 400 `'缺少联系方式'` when
`safeEmail` is empty (no insert), otherwise insert the row; `dbInsertFails`
models the `stmt.run` error callback path (500, no row persisted), `newId`
the `lastID` of a successful insert. -/
def apiSubmit (body : SubmitBody) (dbInsertFails : Bool) (newId : Nat) :
    SubmitResult :=
  let safeContact := jsTrim (body.contact.getD [])
  let trimmedName := jsTrim (body.name.getD [])
  let safeName :=
    if trimmedName ≠ [] then trimmedName
    else if safeContact ≠ [] then VISITOR_LABEL else []
  let trimmedEmail := jsTrim (body.email.getD [])
  let safeEmail := if trimmedEmail ≠ [] then trimmedEmail else safeContact
  if safeEmail = [] then
    { status := 400, ok := false, message := some "缺少联系方式".data }
  else if dbInsertFails then
    { status := 500, ok := false, message := some "存储失败".data }
  else
    { status := 200, ok := true, id := some newId,
      inserted := some
        { name := safeName, email := safeEmail, city := body.city,
          type := body.type, details := body.details,
          contact := safeContact } }

/-! ## `GET /api/submissions` (`server.js` lines 1771-1787) -/

/-- A stored submission as the query projects it; `created_at` is the
insertion timestamp (the `DATETIME DEFAULT CURRENT_TIMESTAMP` value, on
which SQLite's `datetime()` ordering is monotone). -/
structure StoredSubmission where
  id : Nat
  created_at : Nat
  deriving Repr, DecidableEq

/-- Insert into a list sorted by `le` (used to model SQL `ORDER BY`; the
comparison is total, so the result is the unique stable ordering). -/
def insertSorted (le : β → β → Bool) (x : β) : List β → List β
  | [] => [x]
  | y :: ys => if le x y then x :: y :: ys else y :: insertSorted le x ys

/-- Sort by `le` (insertion sort). -/
def sortByLe (le : β → β → Bool) (l : List β) : List β :=
  l.foldr (insertSorted le) []

/-- Newest first: `ORDER BY datetime(created_at) DESC`. -/
def newestFirst (rows : List StoredSubmission) : List StoredSubmission :=
  sortByLe (fun a b => decide (b.created_at ≤ a.created_at)) rows

/-- `parseInt(s, 10)`: skip leading whitespace, optional sign, then leading
decimal digits; `none` models `NaN` (no digits, or an absent parameter). -/
def jsParseInt10 (s : Option Str) : Option Int :=
  match s with
  | none => none
  | some str =>
      let t := str.dropWhile isJsSpace
      let signed : Int × Str :=
        match t with
        | '-' :: r => (-1, r)
        | '+' :: r => (1, r)
        | r => (1, r)
      let ds := (signed.2.takeWhile (fun c => '0' ≤ c && c ≤ '9')).map
        (fun c => c.toNat - 48)
      if ds.isEmpty then none
      else some (signed.1 * (ds.foldl (fun a d => a * 10 + d) 0 : Nat))

/-- `Math.min(parseInt(req.query.limit, 10) || 100, 500)` (line 1772):
`NaN` and `0` are falsy and default to 100. -/
def effLimit (limitParam : Option Str) : Int :=
  match jsParseInt10 limitParam with
  | none => 100
  | some n => if n = 0 then 100 else min n 500

/-- SQLite `LIMIT n`: a *negative* limit means no upper bound on the number
of returned rows (SQLite language documentation for SELECT). -/
def sqliteLimit (n : Int) (rows : List StoredSubmission) :
    List StoredSubmission :=
  if n < 0 then rows else rows.take n.toNat

/-- The `GET /api/submissions` handler over the stored table: newest first,
limited by the effective limit. -/
def apiSubmissions (table : List StoredSubmission) (limitParam : Option Str) :
    List StoredSubmission :=
  sqliteLimit (effLimit limitParam) (newestFirst table)

/-! ## Directory grouping (`buildCompaniesHtml`, `server.js` lines 1101-1155)

The grouping loop (lines 1118-1132) builds `cityOrder` (first-seen city
order), `cityMap : city → {count, industries}` and `cityIndex` (which
always equals the position in `cityOrder`); the city sort (lines
1134-1143) pins `墨西哥城` and `蒙特雷` in front and orders everything
else by first-seen index.  The comparator is a strict total order on the
distinct city names, so any comparison sort — in particular the insertion
sort used here — yields the array `Array.prototype.sort` yields. -/

/-- `company.city || '未分类城市'` (line 1119). -/
def effCity (c : Company) : Str :=
  if c.city = [] then "未分类城市".data else c.city

/-- `company.industry || '其他'` (line 1120). -/
def effIndustry (c : Company) : Str :=
  if c.industry = [] then "其他".data else c.industry

/-- One `cityMap` value: `{ count, industries: Map(industry → company[]) }`. -/
structure CityEntry where
  count : Nat := 0
  industries : List (Str × List Company) := []
  deriving Repr, DecidableEq

/-- Lines 1128-1131: ensure the industry bucket exists, then push. -/
def pushIndustry (inds : List (Str × List Company)) (ind : Str)
    (c : Company) : List (Str × List Company) :=
  match inds with
  | [] => [(ind, [c])]
  | (k, items) :: rest =>
      if k = ind then (k, items ++ [c]) :: rest
      else (k, items) :: pushIndustry rest ind c

/-- Lines 1126-1131: `count += 1` and push into the industry bucket, for a
city already present in the map. -/
def bumpCity (m : List (Str × CityEntry)) (city ind : Str) (c : Company) :
    List (Str × CityEntry) :=
  match m with
  | [] => []
  | (k, e) :: rest =>
      if k = city then
        (k, { count := e.count + 1,
              industries := pushIndustry e.industries ind c }) :: rest
      else (k, e) :: bumpCity rest city ind c

/-- The loop state: `cityOrder` and `cityMap` (`cityIndex` is recovered as
the position in `order`). -/
structure GroupAcc where
  order : List Str := []
  map : List (Str × CityEntry) := []
  deriving Repr, DecidableEq

/-- One iteration of the `companies.forEach` loop (lines 1118-1132). -/
def groupStep (acc : GroupAcc) (c : Company) : GroupAcc :=
  let city := effCity c
  let acc1 :=
    if (alookup acc.map city).isSome then acc
    else { order := acc.order ++ [city],
           map := acc.map ++ [(city, {})] }
  { order := acc1.order, map := bumpCity acc1.map city (effIndustry c) c }

/-- The whole grouping loop. -/
def groupCompanies (companies : List Company) : GroupAcc :=
  companies.foldl groupStep {}

/-- `cityMap.get(city).count`, `0` when the city is absent. -/
def cityCount (acc : GroupAcc) (city : Str) : Nat :=
  ((alookup acc.map city).map (·.count)).getD 0

/-- The first pinned city, `墨西哥城` (line 1135). -/
def mexCity : Str := "墨西哥城".data

/-- The second pinned city, `蒙特雷` (line 1136). -/
def mtyCity : Str := "蒙特雷".data

/-- The pinned-city priority (lines 1134-1137): `墨西哥城 ↦ 0`, `蒙特雷 ↦ 1`,
everything else `Number.POSITIVE_INFINITY` (here `2`, larger than both). -/
def cityPri (c : Str) : Nat :=
  if c = mexCity then 0
  else if c = mtyCity then 1
  else 2

/-- Position of a city in a list (total: length when absent); `cityIndex.get`. -/
def idxOf (l : List Str) (x : Str) : Nat :=
  match l with
  | [] => 0
  | y :: ys => if y = x then 0 else idxOf ys x + 1

/-- The comparator of lines 1138-1143 as a total order: priority first,
then first-seen index. -/
def cityLe (ord : List Str) (a b : Str) : Bool :=
  cityPri a < cityPri b || (cityPri a = cityPri b && idxOf ord a ≤ idxOf ord b)

/-- `orderedCities` (lines 1138-1143). -/
def orderedCitiesOf (companies : List Company) : List Str :=
  let acc := groupCompanies companies
  sortByLe (cityLe acc.order) acc.order

/-- The navigation entries (lines 1145-1154): the `全部` pill with the total
count, then one pill per ordered city with that city's count. -/
def navEntries (companies : List Company) : List (Str × Nat) :=
  ("全部".data, companies.length) ::
    (orderedCitiesOf companies).map
      (fun city => (city, cityCount (groupCompanies companies) city))

/-- Reference form of first-seen deduplication (`seen` accumulates the
cities already emitted): the specification's "order of first occurrence". -/
def firstSeenGo (seen : List Str) : List Str → List Str
  | [] => []
  | x :: xs =>
      if x ∈ seen then firstSeenGo seen xs
      else x :: firstSeenGo (seen ++ [x]) xs

/-- The cities of a list in order of first occurrence. -/
def firstSeen (l : List Str) : List Str := firstSeenGo [] l

/-- Reference form of the pinned ordering: `墨西哥城` first when present,
then `蒙特雷` when present, then all remaining cities in their given
order. -/
def pinnedArrange (l : List Str) : List Str :=
  (if mexCity ∈ l then [mexCity] else []) ++
  (if mtyCity ∈ l then [mtyCity] else []) ++
  l.filter (fun c => !(c = mexCity || c = mtyCity))

/-! ## HTML escaping (`escapeHtml`, `server.js` lines 358-363) -/

/-- The double-quote character. -/
def quotC : Char := Char.ofNat 34

/-- The apostrophe character. -/
def aposC : Char := Char.ofNat 39

/-- `String.prototype.replace(/c/g, rep)` for a single-character pattern:
every occurrence of `c` becomes `rep`. -/
def replaceAllChar (c : Char) (rep : Str) : Str → Str
  | [] => []
  | x :: xs => (if x = c then rep else [x]) ++ replaceAllChar c rep xs

/-- `escapeHtml(value)` (lines 358-363): the five global replacements in
source order (`&`, `<`, `>`, `"`, `'`). -/
def escapeHtml (l : Str) : Str :=
  replaceAllChar aposC "&#39;".data
    (replaceAllChar quotC "&quot;".data
      (replaceAllChar '>' "&gt;".data
        (replaceAllChar '<' "&lt;".data
          (replaceAllChar '&' "&amp;".data l))))

/-- Per-character effect of `escapeHtml` (the five replacements commute
into one character map because no replacement string contains a character
a later replacement rewrites). -/
def escChar (c : Char) : Str :=
  if c = '&' then "&amp;".data
  else if c = '<' then "&lt;".data
  else if c = '>' then "&gt;".data
  else if c = quotC then "&quot;".data
  else if c = aposC then "&#39;".data
  else [c]

/-- The characters that could open or close an HTML tag, attribute or
quoted attribute value. -/
def htmlDangerous (c : Char) : Bool :=
  c = '<' || c = '>' || c = quotC || c = aposC

/-- The five entities `escapeHtml` introduces. -/
def htmlEntities : List Str :=
  ["&amp;".data, "&lt;".data, "&gt;".data, "&quot;".data, "&#39;".data]

/-- A string is well-escaped when it is a concatenation of harmless
characters (no `<`, `>`, `"`, `'`, and no bare `&`) and complete entities:
in particular every `&` in it starts one of the five entities. -/
inductive WellEsc : Str → Prop where
  | nil : WellEsc []
  | safe (c : Char) (rest : Str) (hc : htmlDangerous c = false) (ha : c ≠ '&')
      (h : WellEsc rest) : WellEsc (c :: rest)
  | ent (e : Str) (rest : Str) (he : e ∈ htmlEntities) (h : WellEsc rest) :
      WellEsc (e ++ rest)

/-! ## Directory card rendering (`server.js` lines 515-518, 594-637, 1145-1340)

The file-system facts the renderer consults (`fs.existsSync` on
`image/place-photos/…`) and the `isPlacesApiEnabled()` flag are carried in
a render environment; `buildCompaniesHtml` is a function of that
environment, the company list (`loadCompaniesData()` after the optional
`options.filter`) and the template string. -/

/-- What the directory renderer reads from the outside world. -/
structure RenderEnv where
  /-- `fs.existsSync` for the local photo file of `(placeId, index)` —
  the file name is determined by the pair (lines 594-603). -/
  photoExists : Str → Nat → Bool
  /-- `isPlacesApiEnabled()`. -/
  placesApiEnabled : Bool

/-- Decimal rendering of a `Nat` (template literal interpolation). -/
def natToStr (n : Nat) : Str := (toString n).data

/-- Decimal rendering of an `Int` (template literal interpolation of an
integral JavaScript number). -/
def intToStr (i : Int) : Str := (toString i).data

/-- Lowercase-alphanumeric test for `slugifyAscii`. -/
def isLowerAlnum (c : Char) : Bool :=
  ('a' ≤ c && c ≤ 'z') || ('0' ≤ c && c ≤ '9')

/-- Collapse runs of `-` produced by the character map below (`afterDash`
tells whether the previous emitted character was a dash of the same run). -/
def squeezeDashes : Str → Bool → Str
  | [], _ => []
  | c :: rest, afterDash =>
      if c = '-' then
        if afterDash then squeezeDashes rest true
        else '-' :: squeezeDashes rest true
      else c :: squeezeDashes rest false

/-- `slugifyAscii(value)` (lines 515-518): lowercase, replace every maximal
run of `[^a-z0-9]` by one `-`, then strip one leading and one trailing
dash (`/^-|-$/g`). -/
def slugifyAscii (l : Str) : Str :=
  let collapsed :=
    squeezeDashes
      ((asciiLower l).map (fun c => if isLowerAlnum c then c else '-')) false
  let l1 := match collapsed with
    | '-' :: r => r
    | r => r
  match l1.reverse with
  | '-' :: r => r.reverse
  | _ => l1

/-- The character class `[-a-zA-Z0-9_./:]` of `sanitizeCover`. -/
def coverCharOk (c : Char) : Bool :=
  c = '-' || ('a' ≤ c && c ≤ 'z') || ('A' ≤ c && c ≤ 'Z') ||
  ('0' ≤ c && c ≤ '9') || c = '_' || c = '.' || c = '/' || c = ':'

/-- `sanitizeCover(value)` (lines 375-380). -/
def sanitizeCover (v : Str) : Str :=
  let raw := jsTrim v
  if raw = [] then []
  else if raw.all coverCharOk then raw
  else []

/-- The local photo file name (line 597). -/
def localPhotoFileName (safeId : Str) (index : Nat) : Str :=
  if index > 0 then safeId ++ "-".data ++ natToStr index ++ ".jpg".data
  else safeId ++ ".jpg".data

/-- `getLocalPlacePhoto(placeId, index)?.url` (lines 594-603). -/
def getLocalPlacePhotoUrl (renv : RenderEnv) (placeId : Str) (index : Nat) :
    Option Str :=
  let safeId := jsTrim placeId
  if safeId = [] then none
  else if renv.photoExists safeId index then
    some ("/image/place-photos/".data ++ localPhotoFileName safeId index)
  else none

/-- `buildPlacePhotoUrl(placeId, index)` (lines 629-637). -/
def buildPlacePhotoUrl (renv : RenderEnv) (placeId : Str) (index : Nat) :
    Str :=
  match getLocalPlacePhotoUrl renv placeId index with
  | some url => url
  | none =>
      if !renv.placesApiEnabled then []
      else
        let safeId := jsTrim placeId
        if safeId = [] then []
        else
          "/api/place-photo/".data ++ safeId ++
            (if index > 0 then "/".data ++ natToStr index else [])

/-- `resolveCompanyCoverUrl(company, placeId)` (lines 605-610). -/
def resolveCompanyCoverUrl (renv : RenderEnv) (c : Company) (placeId : Str) :
    Str :=
  let explicitCover := sanitizeCover c.cover
  if explicitCover ≠ [] then explicitCover
  else
    let localCover := (getLocalPlacePhotoUrl renv placeId 0).getD []
    jsStrOr (sanitizeCover localCover) (buildPlacePhotoUrl renv placeId 0)

/-- Uppercase hexadecimal digit. -/
def hexDigit (n : Nat) : Char :=
  if n < 10 then Char.ofNat (48 + n) else Char.ofNat (55 + n)

/-- UTF-8 bytes of one code point. -/
def utf8Bytes (c : Char) : List Nat :=
  let n := c.toNat
  if n < 0x80 then [n]
  else if n < 0x800 then [0xC0 + n / 64, 0x80 + n % 64]
  else if n < 0x10000 then
    [0xE0 + n / 4096, 0x80 + n / 64 % 64, 0x80 + n % 64]
  else
    [0xF0 + n / 262144, 0x80 + n / 4096 % 64, 0x80 + n / 64 % 64,
     0x80 + n % 64]

/-- The characters `encodeURIComponent` leaves unencoded. -/
def uriUnreserved (c : Char) : Bool :=
  ('a' ≤ c && c ≤ 'z') || ('A' ≤ c && c ≤ 'Z') || ('0' ≤ c && c ≤ '9') ||
  c = '-' || c = '_' || c = '.' || c = '!' || c = '~' || c = '*' ||
  c = aposC || c = '(' || c = ')'

/-- `encodeURIComponent`. -/
def encodeURIComponent : Str → Str
  | [] => []
  | c :: rest =>
      (if uriUnreserved c then [c]
       else (utf8Bytes c).foldr
         (fun b acc => '%' :: hexDigit (b / 16) :: hexDigit (b % 16) :: acc)
         []) ++ encodeURIComponent rest

/-- One company card (lines 1172-1202). -/
def renderCompanyCard (renv : RenderEnv) (c : Company) : Str :=
  let safeName := escapeHtml c.name
  let safeSummary := escapeHtml c.summary
  let placeId := jsTrim (jsStrOr c.placeId c.place_id)
  let contactValue := jsTrim c.contact
  let safeContact := escapeHtml contactValue
  let hasContact := contactValue ≠ [] &&
    !(containsSub contactValue ("未提供".data) ||
      containsSub contactValue ("暂无".data))
  let safeSlug := encodeURIComponent c.slug
  let safeCover := resolveCompanyCoverUrl renv c placeId
  let coverStyle :=
    if safeCover ≠ [] then
      " style=\"background-image: linear-gradient(140deg, rgba(15, 23, 42, 0.12), rgba(15, 23, 42, 0.35)), url('".data ++
        safeCover ++ "')\"".data
    else []
  let coverClass := if safeCover ≠ [] then " company-cover".data else []
  let coordsAttr := match c.lat, c.lng with
    | some la, some ln =>
        " data-lat=\"".data ++ intToStr la ++ "\" data-lng=\"".data ++
          intToStr ln ++ "\"".data
    | _, _ => []
  let industry := jsTrim c.industry
  let industryAttr :=
    if industry ≠ [] then
      " data-industry=\"".data ++ escapeHtml industry ++ "\"".data
    else []
  let resolvedCategory :=
    if industry = "餐饮与服务".data then classifyFoodCategory c else []
  let categoryAttr :=
    if resolvedCategory ≠ [] then
      " data-category=\"".data ++ escapeHtml resolvedCategory ++ "\"".data
    else []
  "<a class=\"company-card company-link".data ++ coverClass ++
    "\" href=\"/company/".data ++ safeSlug ++ "\"".data ++ coverStyle ++
    coordsAttr ++ industryAttr ++ categoryAttr ++ ">".data ++
    "<h4>".data ++ safeName ++ "</h4>".data ++
    "<p class=\"company-desc\">".data ++ safeSummary ++ "</p>".data ++
    "<div class=\"company-distance\" data-distance hidden></div>".data ++
    (if hasContact then
      "<div class=\"company-contact\"><span>微信/WhatsApp：".data ++
        safeContact ++ "</span></div>".data
     else []) ++
    "</a>".data

/-- `renderCompanyCards(items)` (line 1172/1202): `.map(...).join('')`. -/
def renderCompanyCards (renv : RenderEnv) (items : List Company) : Str :=
  (items.map (renderCompanyCard renv)).flatten

/-- `foodCategoryPriority` (line 1157). -/
def foodCategoryPriority : List Str :=
  ["中餐".data, "火锅".data, "面馆".data, "烧烤".data, "饮品".data,
   "超市".data]

/-- Bump a `Map(category → count)` (lines 1208-1212). -/
def bumpCount (m : List (Str × Nat)) (k : Str) : List (Str × Nat) :=
  match m with
  | [] => [(k, 1)]
  | (k0, n) :: rest =>
      if k0 = k then (k0, n + 1) :: rest else (k0, n) :: bumpCount rest k

/-- `buildCityToolsHtml(cityEntry, industryEntries)` (lines 1206-1241). -/
def buildCityToolsHtml (cityEntry : CityEntry)
    (industryEntries : List (Str × List Company)) : Str :=
  let foodItems := (alookup cityEntry.industries ("餐饮与服务".data)).getD []
  let categoryCounts :=
    foodItems.foldl (fun m c => bumpCount m (classifyFoodCategory c)) []
  let categoryButtons :=
    ((foodCategoryPriority.filter
        (fun cat => (alookup categoryCounts cat).isSome)).map
      (fun cat =>
        "<button class=\"filter-pill\" type=\"button\" data-filter=\"".data ++
          escapeHtml cat ++
          "\" data-filter-scope=\"category\">".data ++ escapeHtml cat ++
          "</button>".data)).flatten
  let industryButtons :=
    (((industryEntries.map (fun kv => (kv.1, kv.2.length))).filter
        (fun e => e.1 ≠ "餐饮与服务".data)).map
      (fun e =>
        "<button class=\"filter-pill\" type=\"button\" data-filter=\"".data ++
          escapeHtml e.1 ++
          "\" data-filter-scope=\"industry\">".data ++ escapeHtml e.1 ++
          "</button>".data)).flatten
  "<div class=\"city-tools\" data-city-tools data-food-industry=\"".data ++
    escapeHtml ("餐饮与服务".data) ++ "\">".data ++
    "<div class=\"industry-sort\" role=\"group\" aria-label=\"排序\">".data ++
    "<span class=\"tools-label\">排序</span>".data ++
    "<button class=\"sort-pill is-active\" type=\"button\" data-sort=\"default\">默认</button>".data ++
    "<button class=\"sort-pill\" type=\"button\" data-sort=\"distance\">离我最近</button>".data ++
    "</div>".data ++
    "<div class=\"industry-filters\" role=\"group\" aria-label=\"门店筛选\">".data ++
    "<span class=\"tools-label\">筛选</span>".data ++
    "<button class=\"filter-pill is-active\" type=\"button\" data-filter=\"all\">全部</button>".data ++
    categoryButtons ++ industryButtons ++
    "</div>".data ++
    "</div>".data

/-- `buildCityServiceHtml()` (lines 1243-1255). -/
def buildCityServiceHtml : Str :=
  "<div class=\"city-service\">".data ++
  "<div class=\"city-service-head\">".data ++
  "<h3>企业服务</h3>".data ++
  "<span>企业广告招租</span>".data ++
  "</div>".data ++
  "<div class=\"city-service-grid\">".data ++
  "<div class=\"service-card\"><strong>企业广告招租</strong><p>把你的企业放上来</p></div>".data ++
  "<div class=\"service-card\"><strong>企业广告招租</strong><p>把你的企业放上来</p></div>".data ++
  "<div class=\"service-card\"><strong>企业广告招租</strong><p>把你的企业放上来</p></div>".data ++
  "</div>".data ++
  "</div>".data

/-- One step of the food-category grouping loop (lines 1271-1279): the
accumulated `(categoryOrder, categoryMap)`. -/
def foodCatStep (acc : List Str × List (Str × List Company)) (c : Company) :
    List Str × List (Str × List Company) :=
  let cat := jsStrOr (classifyFoodCategory c) ("其他".data)
  let acc1 :=
    if (alookup acc.2 cat).isSome then acc
    else (acc.1 ++ [cat], acc.2 ++ [(cat, [])])
  (acc1.1, pushIndustry acc1.2 cat c)

/-- The category comparator (lines 1281-1286): position in
`foodCategoryPriority` (6 = `Number.POSITIVE_INFINITY` for an unknown
category), tie-broken by first-seen index. -/
def catLe (ord : List Str) (a b : Str) : Bool :=
  idxOf foodCategoryPriority a < idxOf foodCategoryPriority b ||
  (idxOf foodCategoryPriority a = idxOf foodCategoryPriority b &&
    idxOf ord a ≤ idxOf ord b)

/-- The food-industry block (lines 1266-1310). -/
def renderFoodIndustryBlock (renv : RenderEnv) (industry : Str)
    (items : List Company) : Str :=
  let grouped := items.foldl foodCatStep ([], [])
  let orderedCategories := sortByLe (catLe grouped.1) grouped.1
  let categoriesHtml :=
    (orderedCategories.map (fun cat =>
      let categoryItems := (alookup grouped.2 cat).getD []
      "<div class=\"industry-subgroup\" data-category=\"".data ++
        escapeHtml cat ++ "\">".data ++
        "<div class=\"industry-subhead\">".data ++
        "<h4>".data ++ escapeHtml cat ++ "</h4>".data ++
        "<span class=\"industry-count\">".data ++
        natToStr categoryItems.length ++ " 家</span>".data ++
        "</div>".data ++
        "<div class=\"company-grid\">".data ++
        renderCompanyCards renv categoryItems ++ "</div>".data ++
        "</div>".data)).flatten
  "<div class=\"industry-block\" data-industry=\"".data ++
    escapeHtml industry ++ "\">".data ++
    "<div class=\"industry-head\">".data ++
    "<h3>".data ++ escapeHtml industry ++ "</h3>".data ++
    "<span class=\"industry-count\">".data ++ natToStr items.length ++
    " 家</span>".data ++
    "</div>".data ++
    "<div class=\"industry-subgroups\">".data ++ categoriesHtml ++
    "</div>".data ++
    "</div>".data

/-- A non-food industry block (lines 1313-1322). -/
def renderPlainIndustryBlock (renv : RenderEnv) (industry : Str)
    (items : List Company) : Str :=
  "<div class=\"industry-block\" data-industry=\"".data ++
    escapeHtml industry ++ "\">".data ++
    "<div class=\"industry-head\">".data ++
    "<h3>".data ++ escapeHtml industry ++ "</h3>".data ++
    "<span class=\"industry-count\">".data ++ natToStr items.length ++
    " 家</span>".data ++
    "</div>".data ++
    "<div class=\"company-grid\">".data ++ renderCompanyCards renv items ++
    "</div>".data ++
    "</div>".data

/-- The per-city section id (lines 1150-1151, 1260-1261). -/
def citySectionId (city : Str) (index : Nat) : Str :=
  let slug := slugifyAscii city
  if slug ≠ [] then "city-".data ++ slug
  else "city-".data ++ natToStr (index + 1)

/-- One city section (lines 1257-1335). -/
def renderCitySection (renv : RenderEnv) (acc : GroupAcc) (city : Str)
    (index : Nat) : Str :=
  let cityEntry := (alookup acc.map city).getD {}
  let industryEntries := cityEntry.industries
  let industriesHtml :=
    (industryEntries.map (fun kv =>
      if kv.1 = "餐饮与服务".data then
        renderFoodIndustryBlock renv kv.1 kv.2
      else renderPlainIndustryBlock renv kv.1 kv.2)).flatten
  "<section class=\"city-section\" id=\"".data ++
    citySectionId city index ++ "\" data-city=\"".data ++
    escapeHtml city ++ "\">".data ++
    "<div class=\"city-head\">".data ++
    "<h2>".data ++ escapeHtml city ++ "</h2>".data ++
    "</div>".data ++
    buildCityToolsHtml cityEntry industryEntries ++
    buildCityServiceHtml ++
    "<div class=\"city-body\">".data ++ industriesHtml ++ "</div>".data ++
    "</section>".data

/-- The navigation bar (lines 1145-1154). -/
def renderNavHtml (companies : List Company) : Str :=
  let acc := groupCompanies companies
  let ordered := orderedCitiesOf companies
  "<button class=\"pill is-active\" type=\"button\" data-city=\"all\">全部 <em>".data ++
    natToStr companies.length ++ "</em></button>".data ++
    ((ordered.enum.map (fun ci =>
      "<button class=\"pill\" type=\"button\" data-city=\"".data ++
        escapeHtml ci.2 ++ "\" data-city-target=\"".data ++
        citySectionId ci.2 ci.1 ++ "\">".data ++ escapeHtml ci.2 ++
        " <em>".data ++ natToStr (cityCount acc ci.2) ++
        "</em></button>".data)).flatten)

/-- The city sections (lines 1257-1335). -/
def renderSectionsHtml (renv : RenderEnv) (companies : List Company) : Str :=
  let acc := groupCompanies companies
  let ordered := orderedCitiesOf companies
  ((ordered.enum.map
    (fun ci => renderCitySection renv acc ci.2 ci.1)).flatten)

/-- `String.prototype.replace` with a plain-string pattern: replace the
first occurrence only.  (The `$`-pattern handling JavaScript applies to
the replacement string is omitted; it affects neither determinism nor any
grouped-order claim.) -/
def replaceFirst (needle rep : Str) : Str → Str
  | [] => if needle.isEmpty then rep else []
  | c :: rest =>
      if needle.isPrefixOf (c :: rest) then rep ++ (c :: rest).drop needle.length
      else c :: replaceFirst needle rep rest

/-- `buildCompaniesHtml(options)` (lines 1101-1340) over an explicit
environment, the company list (`loadCompaniesData()` after the optional
`options.filter`) and the template string. -/
def buildCompaniesHtml (renv : RenderEnv) (companies : List Company)
    (template : Str) : Str :=
  if template = [] then []
  else if companies.isEmpty then
    replaceFirst ("<!--COMPANY_SECTIONS-->".data)
      ("<p class=\"muted\">暂无企业数据。</p>".data)
      (replaceFirst ("<!--COMPANY_NAV-->".data) [] template)
  else
    replaceFirst ("<!--COMPANY_SECTIONS-->".data)
      (renderSectionsHtml renv companies)
      (replaceFirst ("<!--COMPANY_NAV-->".data) (renderNavHtml companies)
        template)

/-! ## Concrete fixtures and small helpers for the theorems below -/

/-- Is an `Except` value a success? -/
def isOkE (x : Except ε β) : Bool :=
  match x with
  | .ok _ => true
  | .error _ => false

/-- The returned place value of a (successful) details call. -/
def resultValue (x : Except ε (Option β × γ)) : Option β :=
  match x with
  | .ok p => p.1
  | .error _ => none

/-- The returned string of a (successful) place-id lookup. -/
def resultStr (x : Except ε (Str × γ)) : Str :=
  match x with
  | .ok p => p.1
  | .error _ => []

/-- An HTTP world in which every provider call fails with a network
error. -/
def oracleDown : PlacesOracle Nat :=
  { serpSearch := fun _ => .error .network,
    serpPlace := fun _ => .error .network,
    googleFind := fun _ => .error .network,
    googleDetails := fun _ => .error .network }

/-- A disk-tier entry for place id `p1`. -/
def diskEntryP1 : CachedPlace Nat :=
  { place_id := "p1".data, name := "测试店".data, payload := 0 }

/-- `PLACES_API_ENABLED=false` (live provider disabled), with `p1` present
in the disk tier. -/
def envDisabled : PlacesEnv Nat :=
  { apiFlag := false, provider := .google, googleKey := "KEY".data,
    disk := [("p1".data, diskEntryP1)], oracle := oracleDown }

/-- Live provider enabled (Google, key set) but the network is down; the
disk tier knows only `p1`. -/
def envEnabledDown : PlacesEnv Nat :=
  { apiFlag := true, provider := .google, googleKey := "KEY".data,
    disk := [("p1".data, diskEntryP1)], oracle := oracleDown }

/-- A `submissions` table holding 501 rows. -/
def manySubmissions : List StoredSubmission :=
  (List.range 501).map (fun i => { id := i, created_at := i })

/-! ## Helper lemmas: caches -/

theorem cacheLookup_set_self (cache : Cache α) (key : Str) (e : CEntry α) :
    cacheLookup (cacheSet cache key e) key = some e := by
  induction cache with
  | nil => simp [cacheSet, cacheLookup]
  | cons p rest ih =>
      obtain ⟨k, e0⟩ := p
      by_cases h : k = key <;> simp [cacheSet, cacheLookup, h, ih]

theorem cacheLookup_delete_self (cache : Cache α) (key : Str)
    (h : NodupKeys cache) :
    cacheLookup (cacheDelete cache key) key = none := by
  induction cache with
  | nil => simp [cacheDelete, cacheLookup]
  | cons p rest ih =>
      obtain ⟨k, e0⟩ := p
      simp only [NodupKeys, List.map_cons, List.nodup_cons] at h
      by_cases hk : k = key
      · subst hk
        simp only [cacheDelete, if_pos rfl]
        clear ih
        induction rest with
        | nil => simp [cacheLookup]
        | cons q rest' ih' =>
            obtain ⟨k', e'⟩ := q
            simp only [List.map_cons, List.mem_cons] at h
            have hk' : k' ≠ k := fun hEq => h.1 (Or.inl hEq.symm)
            simp only [cacheLookup, if_neg hk']
            exact ih' ⟨fun hm => h.1 (Or.inr hm), (List.nodup_cons.mp h.2).2⟩
      · simp only [cacheDelete, if_neg hk, cacheLookup]
        exact ih h.2

/-- C5.  For every memory-tier cache, key and value: `setCachedValue`
stores the value with `expiresAt` equal to the store time plus 7 days
(in milliseconds); `getCachedValue` returns the stored value iff
`expiresAt` is strictly greater than the current time; an expired entry is
deleted by the read and is absent (hence missed) on the next read; a
missing key reads as `null` without touching the map. -/
theorem memory_cache_ttl_semantics (cache : Cache α) (key : Str) (v : α)
    (now : Nat) :
    cacheLookup (setCachedValue cache key v now) key =
      some ⟨v, now + 7 * 24 * 60 * 60 * 1000⟩ ∧
    (∀ entry, cacheLookup cache key = some entry →
      ((getCachedValue cache key now).1 = some entry.value ↔
        now < entry.expiresAt)) ∧
    (∀ entry, cacheLookup cache key = some entry → entry.expiresAt ≤ now →
      NodupKeys cache →
      getCachedValue cache key now = (none, cacheDelete cache key) ∧
      cacheLookup (getCachedValue cache key now).2 key = none ∧
      (getCachedValue (getCachedValue cache key now).2 key now).1 = none) ∧
    (cacheLookup cache key = none →
      getCachedValue cache key now = (none, cache)) := by
  refine ⟨cacheLookup_set_self cache key _, ?_, ?_, ?_⟩
  · intro entry h
    unfold getCachedValue
    rw [h]
    by_cases hlt : now < entry.expiresAt
    · simp [hlt]
    · simp only [if_neg hlt]
      constructor
      · intro hcontra; exact absurd hcontra (by simp)
      · intro hcontra; exact absurd hcontra hlt
  · intro entry h hexp hnd
    have hnotlt : ¬ now < entry.expiresAt := Nat.not_lt.mpr hexp
    have hget : getCachedValue cache key now = (none, cacheDelete cache key) := by
      unfold getCachedValue
      rw [h]
      simp [hnotlt]
    refine ⟨hget, ?_, ?_⟩
    · rw [hget]
      exact cacheLookup_delete_self cache key hnd
    · rw [hget]
      unfold getCachedValue
      rw [cacheLookup_delete_self cache key hnd]
  · intro h
    unfold getCachedValue
    rw [h]

/-- Witness for C5 at concrete inputs: a fresh store is readable with the
7-day deadline, a live entry is served strictly before its deadline, and
an entry whose deadline has passed reads as `null`, is deleted, and is
missed by the following read. -/
theorem memory_cache_ttl_semantics_witness :
    cacheLookup (setCachedValue ([] : Cache Nat) ("k".data) 5 100) ("k".data) =
      some ⟨5, 100 + 7 * 24 * 60 * 60 * 1000⟩ ∧
    ((getCachedValue [(("k".data : Str), (⟨5, 30⟩ : CEntry Nat))] ("k".data) 20).1 =
        some 5 ↔ (20 : Nat) < 30) ∧
    (getCachedValue [(("k".data : Str), (⟨5, 30⟩ : CEntry Nat))] ("k".data) 30 =
        (none, []) ∧
      cacheLookup
        (getCachedValue [(("k".data : Str), (⟨5, 30⟩ : CEntry Nat))] ("k".data) 30).2
        ("k".data) = none ∧
      (getCachedValue
        (getCachedValue [(("k".data : Str), (⟨5, 30⟩ : CEntry Nat))] ("k".data) 30).2
        ("k".data) 30).1 = none) := by
  refine ⟨(memory_cache_ttl_semantics [] ("k".data) 5 100).1, ?_, ?_⟩
  · exact (memory_cache_ttl_semantics
      [(("k".data : Str), (⟨5, 30⟩ : CEntry Nat))] ("k".data) 5 20).2.1
      ⟨5, 30⟩ (by decide)
  · have h := (memory_cache_ttl_semantics
      [(("k".data : Str), (⟨5, 30⟩ : CEntry Nat))] ("k".data) 5 30).2.2.1
      ⟨5, 30⟩ (by decide) (by decide) (by simp [NodupKeys])
    exact ⟨h.1, h.2.1, h.2.2⟩

/-- C2.  The directory's food-category assignment returns the trimmed
explicit `category` field when non-empty; otherwise it matches the
lowercased name-and-summary text against the hot-pot, then noodle-shop,
then barbecue keyword alternations, returning the first match, and `中餐`
when none match; in particular the scenario company
`{slug:"abc", name:"Abc Noodles", industry:"餐饮与服务", summary:"牛肉面"}`
is classified `面馆`. -/
theorem food_classifier_priority (c : Company) :
    (jsTrim c.category ≠ [] → classifyFoodCategory c = jsTrim c.category) ∧
    (jsTrim c.category = [] → hotpotHit (foodText c) = true →
      classifyFoodCategory c = "火锅".data) ∧
    (jsTrim c.category = [] → hotpotHit (foodText c) = false →
      noodleHit (foodText c) = true →
      classifyFoodCategory c = "面馆".data) ∧
    (jsTrim c.category = [] → hotpotHit (foodText c) = false →
      noodleHit (foodText c) = false → bbqHit (foodText c) = true →
      classifyFoodCategory c = "烧烤".data) ∧
    (jsTrim c.category = [] → hotpotHit (foodText c) = false →
      noodleHit (foodText c) = false → bbqHit (foodText c) = false →
      classifyFoodCategory c = "中餐".data) ∧
    classifyFoodCategory abcNoodles = "面馆".data := by
  refine ⟨?_, ?_, ?_, ?_, ?_, by decide⟩ <;>
    · intros
      simp_all [classifyFoodCategory]

/-- Witness for C2 at concrete companies: one per branch of the priority
chain. -/
theorem food_classifier_priority_witness :
    classifyFoodCategory { category := " 私房菜 ".data } = "私房菜".data ∧
    classifyFoodCategory { name := "老王火锅".data } = "火锅".data ∧
    classifyFoodCategory { name := "兰州牛肉面".data } = "面馆".data ∧
    classifyFoodCategory { name := "深夜烤肉".data } = "烧烤".data ∧
    classifyFoodCategory { name := "鲁菜坊".data } = "中餐".data := by
  refine ⟨?_, ?_, ?_, ?_, ?_⟩
  · exact (food_classifier_priority { category := " 私房菜 ".data }).1
      (by decide)
  · exact (food_classifier_priority { name := "老王火锅".data }).2.1
      (by decide) (by decide)
  · exact (food_classifier_priority { name := "兰州牛肉面".data }).2.2.1
      (by decide) (by decide) (by decide)
  · exact (food_classifier_priority { name := "深夜烤肉".data }).2.2.2.1
      (by decide) (by decide) (by decide) (by decide)
  · exact (food_classifier_priority { name := "鲁菜坊".data }).2.2.2.2.1
      (by decide) (by decide) (by decide) (by decide)

/-- C9 counterexample.  The two classifiers are *not* equivalent: a
drink-keyword company (`奶茶店`, no explicit category, no hot-pot/noodle/
barbecue match) is `中餐` for the in-page classifier but `饮品` for the
module-level one. -/
theorem food_classifiers_differ_cex :
    classifyFoodCategory { name := "奶茶店".data } = "中餐".data ∧
    classifyFoodCategoryForDirectory { name := "奶茶店".data } =
      "饮品".data ∧
    classifyFoodCategory { name := "奶茶店".data } ≠
      classifyFoodCategoryForDirectory { name := "奶茶店".data } := by
  refine ⟨by decide, by decide, by decide⟩

/-- C9 amended.  The two classifiers agree exactly on the companies whose
category does not fall through to the drink/supermarket branches: an
explicit category, a hot-pot/noodle/barbecue keyword match, or a text
matching neither drink nor supermarket keywords.  On the remaining
companies `classifyFoodCategory` says `中餐` while
`classifyFoodCategoryForDirectory` says `饮品` or `超市`. -/
theorem food_classifiers_agree_iff (c : Company) :
    classifyFoodCategory c = classifyFoodCategoryForDirectory c ↔
      (jsTrim c.category ≠ [] ∨ hotpotHit (foodText c) = true ∨
       noodleHit (foodText c) = true ∨ bbqHit (foodText c) = true ∨
       (drinkHit (foodText c) = false ∧ marketHit (foodText c) = false)) := by
  by_cases h1 : jsTrim c.category = [] <;>
    by_cases h2 : hotpotHit (foodText c) <;>
      by_cases h3 : noodleHit (foodText c) <;>
        by_cases h4 : bbqHit (foodText c) <;>
          by_cases h5 : drinkHit (foodText c) <;>
            by_cases h6 : marketHit (foodText c) <;>
              simp_all [classifyFoodCategory, classifyFoodCategoryForDirectory]

/-- C7.  `buildCompaniesHtml` is deterministic: two invocations over the
same outside world (local photo files, API flag) with the same company
list and the same template string produce byte-identical HTML.  In this
embedding the renderer is a pure function of those three inputs — it
mutates no state — so determinism is definitional. -/
theorem buildCompaniesHtml_deterministic (renv : RenderEnv)
    (companies companies' : List Company) (template template' : Str)
    (hc : companies = companies') (ht : template = template') :
    buildCompaniesHtml renv companies template =
      buildCompaniesHtml renv companies' template' := by
  subst hc; subst ht; rfl

/-- Witness for C7: two renders of a one-company list over a concrete
world agree. -/
theorem buildCompaniesHtml_deterministic_witness :
    buildCompaniesHtml ⟨fun _ _ => false, false⟩
        [{ name := "测试".data, city := "蒙特雷".data }]
        ("<!--COMPANY_NAV--><!--COMPANY_SECTIONS-->".data) =
      buildCompaniesHtml ⟨fun _ _ => false, false⟩
        [{ name := "测试".data, city := "蒙特雷".data }]
        ("<!--COMPANY_NAV--><!--COMPANY_SECTIONS-->".data) :=
  buildCompaniesHtml_deterministic ⟨fun _ _ => false, false⟩
    [{ name := "测试".data, city := "蒙特雷".data }]
    [{ name := "测试".data, city := "蒙特雷".data }]
    ("<!--COMPANY_NAV--><!--COMPANY_SECTIONS-->".data)
    ("<!--COMPANY_NAV--><!--COMPANY_SECTIONS-->".data) rfl rfl

/-- C6.  `POST /api/submit` with a non-empty contact but no name and no
email succeeds with the new row id, storing the default visitor label
`网站访客` as the name and the trimmed contact as the email; a body with
neither a non-empty email nor a non-empty contact is rejected with 400
`缺少联系方式` and no row is inserted. -/
theorem api_submit_contact_fallback (body : SubmitBody) (newId : Nat) :
    (jsTrim (body.contact.getD []) ≠ [] → jsTrim (body.name.getD []) = [] →
      jsTrim (body.email.getD []) = [] →
      apiSubmit body false newId =
        { status := 200, ok := true, id := some newId,
          inserted := some
            { name := VISITOR_LABEL, email := jsTrim (body.contact.getD []),
              city := body.city, type := body.type, details := body.details,
              contact := jsTrim (body.contact.getD []) } }) ∧
    (∀ dbInsertFails, jsTrim (body.email.getD []) = [] →
      jsTrim (body.contact.getD []) = [] →
      apiSubmit body dbInsertFails newId =
        { status := 400, ok := false,
          message := some "缺少联系方式".data } ∧
      (apiSubmit body dbInsertFails newId).inserted = none) := by
  constructor
  · intro hc hn he
    simp [apiSubmit, hc, hn, he]
  · intro dbf he hc
    constructor
    · simp [apiSubmit, he, hc]
    · simp [apiSubmit, he, hc]

/-- Witness for C6: the specification's scenario body
`{contact:"+52123", city:"CDMX"}` succeeds with the visitor label and the
contact as email; the empty body is rejected with 400 and inserts
nothing. -/
theorem api_submit_contact_fallback_witness :
    apiSubmit { contact := some "+52123".data, city := some "CDMX".data }
        false 1 =
      { status := 200, ok := true, id := some 1,
        inserted := some
          { name := VISITOR_LABEL, email := "+52123".data,
            city := some "CDMX".data, type := none, details := none,
            contact := "+52123".data } } ∧
    apiSubmit {} false 1 =
      { status := 400, ok := false, message := some "缺少联系方式".data } ∧
    (apiSubmit {} false 1).inserted = none := by
  refine ⟨?_, ?_, ?_⟩
  · exact (api_submit_contact_fallback
      { contact := some "+52123".data, city := some "CDMX".data } 1).1
      (by decide) (by decide) (by decide)
  · exact ((api_submit_contact_fallback {} 1).2 false (by decide)
      (by decide)).1
  · exact ((api_submit_contact_fallback {} 1).2 false (by decide)
      (by decide)).2

/-! ## C10: escaping -/

theorem replaceAllChar_append (c : Char) (rep : Str) (l1 l2 : Str) :
    replaceAllChar c rep (l1 ++ l2) =
      replaceAllChar c rep l1 ++ replaceAllChar c rep l2 := by
  induction l1 with
  | nil => simp [replaceAllChar]
  | cons x xs ih => simp [replaceAllChar, ih]

theorem escapeHtml_cons (c : Char) (l : Str) :
    escapeHtml (c :: l) = escChar c ++ escapeHtml l := by
  unfold escapeHtml
  rw [show replaceAllChar '&' ("&amp;".data) (c :: l) =
        (if c = '&' then "&amp;".data else [c]) ++
          replaceAllChar '&' ("&amp;".data) l from rfl]
  rw [replaceAllChar_append, replaceAllChar_append, replaceAllChar_append,
    replaceAllChar_append]
  congr 1
  by_cases h1 : c = '&'
  · subst h1; decide
  · by_cases h2 : c = '<'
    · subst h2; decide
    · by_cases h3 : c = '>'
      · subst h3; decide
      · by_cases h4 : c = quotC
        · subst h4; decide
        · by_cases h5 : c = aposC
          · subst h5; decide
          · simp [replaceAllChar, escChar, h1, h2, h3, h4, h5]

theorem wellEsc_escChar_append (c : Char) (rest : Str) (h : WellEsc rest) :
    WellEsc (escChar c ++ rest) := by
  by_cases h1 : c = '&'
  · subst h1
    exact WellEsc.ent ("&amp;".data) rest (by decide) h
  · by_cases h2 : c = '<'
    · subst h2
      exact WellEsc.ent ("&lt;".data) rest (by decide) h
    · by_cases h3 : c = '>'
      · subst h3
        exact WellEsc.ent ("&gt;".data) rest (by decide) h
      · by_cases h4 : c = quotC
        · subst h4
          exact WellEsc.ent ("&quot;".data) rest (by decide) h
        · by_cases h5 : c = aposC
          · subst h5
            exact WellEsc.ent ("&#39;".data) rest (by decide) h
          · have : escChar c = [c] := by simp [escChar, h1, h2, h3, h4, h5]
            rw [this]
            exact WellEsc.safe c rest
              (by simp [htmlDangerous, h2, h3, h4, h5]) h1 h

theorem wellEsc_no_dangerous {m : Str} (h : WellEsc m) :
    ∀ c ∈ m, htmlDangerous c = false := by
  induction h with
  | nil => intro c hc; simp at hc
  | safe c0 rest hc0 _ _ ih =>
      intro c hc
      rcases List.mem_cons.mp hc with h | h
      · subst h; exact hc0
      · exact ih c h
  | ent e rest he _ ih =>
      intro c hc
      rcases List.mem_append.mp hc with h | h
      · simp only [htmlEntities, List.mem_cons, List.mem_singleton] at he
        rcases he with rfl | rfl | rfl | rfl | rfl | hfalse
        · clear hc; revert c; decide
        · clear hc; revert c; decide
        · clear hc; revert c; decide
        · clear hc; revert c; decide
        · clear hc; revert c; decide
        · simp at hfalse
      · exact ih c h

/-- C10.  For every input string, the output of `escapeHtml` is a
concatenation of harmless characters and the five entities — so every `&`
in the output starts `&amp;`, `&lt;`, `&gt;`, `&quot;` or `&#39;` — and it
contains no `<`, `>`, `"` or `'` at all; hence the company-provided
name, summary and contact values that `renderCompanyCard` pipes through
`escapeHtml` cannot open or close an HTML tag, attribute or quoted
attribute value. -/
theorem escapeHtml_wellEscaped (l : Str) :
    WellEsc (escapeHtml l) ∧
    (escapeHtml l).all (fun c => !htmlDangerous c) = true := by
  have hwe : WellEsc (escapeHtml l) := by
    induction l with
    | nil => exact WellEsc.nil
    | cons c rest ih =>
        rw [escapeHtml_cons]
        exact wellEsc_escChar_append c (escapeHtml rest) ih
  refine ⟨hwe, ?_⟩
  rw [List.all_eq_true]
  intro c hc
  simp [wellEsc_no_dangerous hwe c hc]

/-! ## C3: disk tier with the live provider disabled -/

/-- C3 counterexample.  With the live provider disabled and `p1` present in
the disk tier, `fetchPlaceDetails('p1')` returns `null`, not the disk
entry: the guard `if (!isPlacesApiEnabled() || !placeId) return null`
(line 877) fires before the disk tier is consulted. -/
theorem fetchPlaceDetails_disabled_cex :
    isPlacesApiEnabled envDisabled = false ∧
    alookup envDisabled.disk ("p1".data) = some diskEntryP1 ∧
    fetchPlaceDetails envDisabled ("p1".data) [] =
      .ok (none, envDisabled) ∧
    (none : Option (CachedPlace Nat)) ≠ some diskEntryP1 := by
  refine ⟨rfl, rfl, rfl, by simp⟩

/-- C3 amended.  With the live provider disabled, `fetchPlaceDetails`
returns `null` without consulting any cache tier; the disk entry is
instead returned unchanged by `getCompanyPlaceData` for a company whose
(trimmed) place id has a disk entry — that function implements the
disabled-mode disk fallback (lines 1051-1058). -/
theorem placeDetails_disabled_disk_fallback (env : PlacesEnv α)
    (c : Company) (pid q : Str) (v : CachedPlace α)
    (hdis : isPlacesApiEnabled env = false)
    (hpid : jsTrim (jsStrOr c.placeId c.place_id) = pid)
    (hne : pid ≠ [])
    (hdisk : alookup env.disk pid = some v) :
    fetchPlaceDetails env pid q = .ok (none, env) ∧
    getCompanyPlaceData env c = .ok (some v, env) := by
  constructor
  · unfold fetchPlaceDetails
    simp [hdis]
  · unfold getCompanyPlaceData
    simp [hdis, hpid, hne, hdisk]

/-- Witness for the amended C3 at the concrete disabled environment. -/
theorem placeDetails_disabled_disk_fallback_witness :
    fetchPlaceDetails envDisabled ("p1".data) [] = .ok (none, envDisabled) ∧
    getCompanyPlaceData envDisabled { placeId := "p1".data } =
      .ok (some diskEntryP1, envDisabled) :=
  placeDetails_disabled_disk_fallback envDisabled { placeId := "p1".data }
    ("p1".data) [] diskEntryP1 rfl (by decide) (by decide) rfl

/-! ## C4: error containment in the provider layer -/

theorem fetchPlaceDetailsLive_isOk (env : PlacesEnv α) (pid q : Str) :
    isOkE (fetchPlaceDetailsLive env pid q) = true := by
  unfold fetchPlaceDetailsLive
  repeat' first | split | dsimp only []
  all_goals rfl

theorem fetchPlaceDetails_isOk (env : PlacesEnv α) (pid q : Str) :
    isOkE (fetchPlaceDetails env pid q) = true := by
  unfold fetchPlaceDetails
  repeat' first | split | dsimp only []
  all_goals first | rfl | exact fetchPlaceDetailsLive_isOk _ _ _

theorem fetchPlaceIdByQueryUncached_isOk (env : PlacesEnv α) (q : Str) :
    isOkE (fetchPlaceIdByQueryUncached env q) = true := by
  unfold fetchPlaceIdByQueryUncached
  repeat' first | split | dsimp only []
  all_goals rfl

theorem fetchPlaceIdByQuery_isOk (env : PlacesEnv α) (q : Str) :
    isOkE (fetchPlaceIdByQuery env q) = true := by
  unfold fetchPlaceIdByQuery
  repeat' first | split | dsimp only []
  all_goals first | rfl | exact fetchPlaceIdByQueryUncached_isOk _ _

theorem fetchPlaceDetailsLive_fails (env : PlacesEnv α) (pid q : Str)
    (hf : OracleFails env.oracle) :
    fetchPlaceDetailsLive env pid q = .ok (none, env) := by
  obtain ⟨h1, h2, h3, h4⟩ := hf
  unfold fetchPlaceDetailsLive
  cases env.provider
  case google =>
    by_cases hk : env.googleKey = []
    · simp [hk]
    · obtain ⟨e, he⟩ := h4 pid
      simp [hk, he]
  case serpapi =>
    unfold serpPlaceCall
    by_cases hk : serpApiKey env = []
    · simp [hk]
    · obtain ⟨e, he⟩ := h2 pid
      simp [hk, he]
  case searchapi =>
    by_cases hq : jsTrim q = []
    · simp [hq]
    · unfold serpSearchCall
      obtain ⟨e, he⟩ := h1 (jsTrim q)
      by_cases hk : serpApiKey env = [] <;> simp [hq, hk, he]

theorem fetchPlaceIdByQueryUncached_fails (env : PlacesEnv α) (q : Str)
    (hf : OracleFails env.oracle) :
    fetchPlaceIdByQueryUncached env q = .ok ([], env) := by
  obtain ⟨h1, h2, h3, h4⟩ := hf
  unfold fetchPlaceIdByQueryUncached
  cases env.provider
  case google =>
    by_cases hk : env.googleKey = []
    · simp [hk]
    · obtain ⟨e, he⟩ := h3 q
      simp [hk, he]
  case serpapi =>
    unfold serpSearchCall
    obtain ⟨e, he⟩ := h1 q
    by_cases hk : serpApiKey env = [] <;> simp [hk, he]
  case searchapi =>
    unfold serpSearchCall
    obtain ⟨e, he⟩ := h1 q
    by_cases hk : serpApiKey env = [] <;> simp [hk, he]

theorem fetchPlaceIdByQueryUncached_serp_nomatch (env : PlacesEnv α)
    (q : Str) (hp : env.provider ≠ .google)
    (hnm : ∀ data, env.oracle.serpSearch q = .ok data →
      data.local_results = [] ∧ data.place_results = none) :
    fetchPlaceIdByQueryUncached env q = .ok ([], env) := by
  unfold fetchPlaceIdByQueryUncached
  cases hpv : env.provider
  case google => exact absurd hpv hp
  case serpapi =>
    unfold serpSearchCall
    by_cases hk : serpApiKey env = []
    · simp [hk]
    · cases hcall : env.oracle.serpSearch q with
      | error e => simp [hk, hcall]
      | ok data =>
          obtain ⟨hl, hpr⟩ := hnm data hcall
          simp [hk, hcall, hl, hpr, jsOr, jsTrim]
  case searchapi =>
    unfold serpSearchCall
    by_cases hk : serpApiKey env = []
    · simp [hk]
    · cases hcall : env.oracle.serpSearch q with
      | error e => simp [hk, hcall]
      | ok data =>
          obtain ⟨hl, hpr⟩ := hnm data hcall
          simp [hk, hcall, hl, hpr, jsOr, jsTrim]

theorem fetchPlaceIdByQueryUncached_google_nomatch (env : PlacesEnv α)
    (q : Str) (hp : env.provider = .google)
    (hnm : ∀ data, env.oracle.googleFind q = .ok data →
      data.status ≠ "OK".data ∨ data.candidates = []) :
    fetchPlaceIdByQueryUncached env q = .ok ([], env) := by
  unfold fetchPlaceIdByQueryUncached
  rw [hp]
  by_cases hk : env.googleKey = []
  · simp [hk]
  · cases hcall : env.oracle.googleFind q with
    | error e => simp [hk, hcall]
    | ok data =>
        have hcond : data.status ≠ "OK".data ∨ data.candidates.isEmpty := by
          rcases hnm data hcall with h | h
          · exact Or.inl h
          · exact Or.inr (by simp [h])
        simp only [hk, hcall, if_neg, if_pos hcond]
        simp

theorem fetchPlaceDetails_fails_disk (env : PlacesEnv α) (pid q : Str)
    (hen : isPlacesApiEnabled env = true) (hpid : pid ≠ [])
    (hmem : (getCachedValue env.placesCache pid env.now).1 = none)
    (hf : OracleFails env.oracle) :
    resultValue (fetchPlaceDetails env pid q) = alookup env.disk pid := by
  unfold fetchPlaceDetails
  have hguard : (!isPlacesApiEnabled env || pid.isEmpty) = false := by
    simp [hen, hpid]
  rw [hguard]
  simp only [Bool.false_eq_true, if_false]
  rw [hmem]
  cases hd : alookup env.disk pid with
  | some d => simp [hd, resultValue]
  | none =>
      simp only [hd]
      rw [fetchPlaceDetailsLive_fails
        { env with placesCache := (getCachedValue env.placesCache pid env.now).2 }
        pid q hf]
      rfl

theorem fetchPlaceIdByQuery_via_uncached (env : PlacesEnv α) (q : Str)
    (hmiss : (getCachedValue env.placeIdCache q env.now).1 = none ∨
      (getCachedValue env.placeIdCache q env.now).1 = some [])
    (hres : fetchPlaceIdByQueryUncached
        { env with placeIdCache := (getCachedValue env.placeIdCache q env.now).2 }
        q =
      .ok ([], { env with
        placeIdCache := (getCachedValue env.placeIdCache q env.now).2 })) :
    resultStr (fetchPlaceIdByQuery env q) = [] := by
  unfold fetchPlaceIdByQuery
  by_cases h1 : (!isPlacesApiEnabled env || q.isEmpty) = true
  · rw [if_pos h1]; rfl
  · rw [if_neg h1]
    dsimp only
    rcases hmiss with hm | hm
    · rw [hm, hres]
      rfl
    · rw [hm]
      simp only [ne_eq, not_true_eq_false, if_false]
      rw [hres]
      rfl

theorem fetchPlaceIdByQuery_fails_empty (env : PlacesEnv α) (q : Str)
    (hf : OracleFails env.oracle)
    (hmiss : (getCachedValue env.placeIdCache q env.now).1 = none ∨
      (getCachedValue env.placeIdCache q env.now).1 = some []) :
    resultStr (fetchPlaceIdByQuery env q) = [] :=
  fetchPlaceIdByQuery_via_uncached env q hmiss
    (fetchPlaceIdByQueryUncached_fails _ q hf)

/-- C4.  Error containment of the provider layer: `fetchPlaceDetails` and
`fetchPlaceIdByQuery` can never propagate an exception (every provider
outcome yields a caught, `.ok` result); when every live call fails
(network error, non-OK status, malformed payload) and the memory tier
misses, `fetchPlaceDetails` returns exactly the disk-tier value of the
place id — `null` when absent — and `fetchPlaceIdByQuery` returns the
empty string; and a successful provider reply with *no* matching candidate
also yields the empty string. -/
theorem places_fetch_error_containment (env : PlacesEnv α) (pid q : Str) :
    isOkE (fetchPlaceDetails env pid q) = true ∧
    isOkE (fetchPlaceIdByQuery env q) = true ∧
    (isPlacesApiEnabled env = true → pid ≠ [] →
      (getCachedValue env.placesCache pid env.now).1 = none →
      OracleFails env.oracle →
      resultValue (fetchPlaceDetails env pid q) = alookup env.disk pid) ∧
    (OracleFails env.oracle →
      ((getCachedValue env.placeIdCache q env.now).1 = none ∨
       (getCachedValue env.placeIdCache q env.now).1 = some []) →
      resultStr (fetchPlaceIdByQuery env q) = []) ∧
    (env.provider ≠ .google →
      ((getCachedValue env.placeIdCache q env.now).1 = none ∨
       (getCachedValue env.placeIdCache q env.now).1 = some []) →
      (∀ data, env.oracle.serpSearch q = .ok data →
        data.local_results = [] ∧ data.place_results = none) →
      resultStr (fetchPlaceIdByQuery env q) = []) ∧
    (env.provider = .google →
      ((getCachedValue env.placeIdCache q env.now).1 = none ∨
       (getCachedValue env.placeIdCache q env.now).1 = some []) →
      (∀ data, env.oracle.googleFind q = .ok data →
        data.status ≠ "OK".data ∨ data.candidates = []) →
      resultStr (fetchPlaceIdByQuery env q) = []) := by
  refine ⟨fetchPlaceDetails_isOk env pid q, fetchPlaceIdByQuery_isOk env q,
    fun hen hpid hmem hf => fetchPlaceDetails_fails_disk env pid q hen hpid hmem hf,
    fun hf hmiss => fetchPlaceIdByQuery_fails_empty env q hf hmiss,
    ?_, ?_⟩
  · intro hp hmiss hnm
    exact fetchPlaceIdByQuery_via_uncached env q hmiss
      (fetchPlaceIdByQueryUncached_serp_nomatch _ q hp hnm)
  · intro hp hmiss hnm
    exact fetchPlaceIdByQuery_via_uncached env q hmiss
      (fetchPlaceIdByQueryUncached_google_nomatch _ q hp hnm)

/-- Witness for C4 at the concrete enabled-but-down environment: both calls
return `.ok`, the fetch for the uncached `p2` degrades to `null`
(no disk entry), the fetch for the cached `p1` serves the disk entry, and
the id lookup returns the empty string. -/
theorem places_fetch_error_containment_witness :
    isOkE (fetchPlaceDetails envEnabledDown ("p2".data) []) = true ∧
    resultValue (fetchPlaceDetails envEnabledDown ("p2".data) ("查询".data)) =
      alookup envEnabledDown.disk ("p2".data) ∧
    resultValue (fetchPlaceDetails envEnabledDown ("p1".data) []) =
      alookup envEnabledDown.disk ("p1".data) ∧
    resultStr (fetchPlaceIdByQuery envEnabledDown ("查询".data)) = [] := by
  have hf : OracleFails envEnabledDown.oracle :=
    ⟨fun _ => ⟨.network, rfl⟩, fun _ => ⟨.network, rfl⟩,
     fun _ => ⟨.network, rfl⟩, fun _ => ⟨.network, rfl⟩⟩
  refine ⟨(places_fetch_error_containment envEnabledDown ("p2".data) []).1,
    (places_fetch_error_containment envEnabledDown ("p2".data)
      ("查询".data)).2.2.1 rfl (by decide) rfl hf,
    (places_fetch_error_containment envEnabledDown ("p1".data) []).2.2.1
      rfl (by decide) rfl hf,
    (places_fetch_error_containment envEnabledDown ("p2".data)
      ("查询".data)).2.2.2.1 hf (Or.inl rfl)⟩

/-! ## C8: the submissions listing -/

theorem insertSorted_eq_orderedInsert (le : β → β → Bool) (x : β)
    (l : List β) :
    insertSorted le x l = List.orderedInsert (fun a b => le a b = true) x l := by
  induction l with
  | nil => rfl
  | cons y ys ih => simp only [insertSorted, List.orderedInsert, ih]

theorem sortByLe_eq_insertionSort (le : β → β → Bool) (l : List β) :
    sortByLe le l = List.insertionSort (fun a b => le a b = true) l := by
  induction l with
  | nil => rfl
  | cons y ys ih =>
      simp only [sortByLe, List.foldr_cons, List.insertionSort]
      rw [← ih]
      exact insertSorted_eq_orderedInsert le y (sortByLe le ys)

theorem newestFirst_perm (rows : List StoredSubmission) :
    (newestFirst rows).Perm rows := by
  rw [newestFirst, sortByLe_eq_insertionSort]
  exact List.perm_insertionSort _ rows

theorem newestFirst_sorted (rows : List StoredSubmission) :
    List.Pairwise (fun a b => b.created_at ≤ a.created_at)
      (newestFirst rows) := by
  rw [newestFirst, sortByLe_eq_insertionSort]
  haveI : IsTotal StoredSubmission
      (fun a b => (decide (b.created_at ≤ a.created_at)) = true) :=
    ⟨fun a b => by
      simp only [decide_eq_true_eq]
      exact Nat.le_total b.created_at a.created_at⟩
  haveI : IsTrans StoredSubmission
      (fun a b => (decide (b.created_at ≤ a.created_at)) = true) :=
    ⟨fun a b c hab hbc => by
      simp only [decide_eq_true_eq] at hab hbc ⊢
      exact Nat.le_trans hbc hab⟩
  have h := List.sorted_insertionSort
    (fun a b => (decide (b.created_at ≤ a.created_at)) = true) rows
  exact h.imp (fun hab => by simpa using hab)

theorem effLimit_le_500 (limitParam : Option Str) : effLimit limitParam ≤ 500 := by
  unfold effLimit
  cases jsParseInt10 limitParam with
  | none => norm_num
  | some n =>
      by_cases h : n = 0
      · simp [h]
      · simp only [h, if_false]
        exact min_le_right n 500

/-- C8 counterexample.  `?limit=-1` parses to `-1`, survives
`Math.min(-1, 500)`, and SQLite's negative `LIMIT` removes the bound: with
501 stored rows the endpoint returns 501 rows, exceeding 500. -/
theorem submissions_limit_cex :
    effLimit (some ("-1".data)) = -1 ∧
    (apiSubmissions manySubmissions (some ("-1".data))).length = 501 ∧
    ¬((apiSubmissions manySubmissions (some ("-1".data))).length ≤ 500) := by
  have h1 : effLimit (some ("-1".data)) = -1 := by decide
  have h2 : (apiSubmissions manySubmissions (some ("-1".data))).length = 501 := by
    unfold apiSubmissions
    rw [h1]
    simp only [sqliteLimit, if_pos (by norm_num : (-1 : Int) < 0)]
    rw [(newestFirst_perm manySubmissions).length_eq]
    simp [manySubmissions]
  exact ⟨h1, h2, by rw [h2]; norm_num⟩

/-- C8 amended.  The response is always ordered newest first by
`created_at`; the row count never exceeds 500 *provided the parsed limit is
nonnegative* (absent, non-numeric and zero limits default to 100, positive
ones are capped by `Math.min(·, 500)`); but a negative parsed limit is
passed to SQLite's `LIMIT`, which treats it as "no bound", returning every
stored row. -/
theorem submissions_sorted_capped (table : List StoredSubmission)
    (limitParam : Option Str) :
    List.Pairwise (fun a b => b.created_at ≤ a.created_at)
      (apiSubmissions table limitParam) ∧
    (0 ≤ effLimit limitParam →
      (apiSubmissions table limitParam).length ≤ 500) ∧
    (effLimit limitParam < 0 →
      apiSubmissions table limitParam = newestFirst table) := by
  refine ⟨?_, ?_, ?_⟩
  · unfold apiSubmissions sqliteLimit
    by_cases h : effLimit limitParam < 0
    · simpa [h] using newestFirst_sorted table
    · simp only [h, if_false]
      exact (newestFirst_sorted table).sublist (List.take_sublist _ _)
  · intro h
    unfold apiSubmissions sqliteLimit
    have hneg : ¬ effLimit limitParam < 0 := by omega
    simp only [hneg, if_false]
    calc (List.take (effLimit limitParam).toNat (newestFirst table)).length
        ≤ (effLimit limitParam).toNat := by
          rw [List.length_take]
          exact Nat.min_le_left _ _
      _ ≤ 500 := by
          have := effLimit_le_500 limitParam
          omega
  · intro h
    unfold apiSubmissions sqliteLimit
    simp [h]

/-- Witness for the amended C8 at a concrete table and limit. -/
theorem submissions_sorted_capped_witness :
    List.Pairwise (fun a b => b.created_at ≤ a.created_at)
      (apiSubmissions [{ id := 1, created_at := 5 }, { id := 2, created_at := 9 }]
        (some ("1".data))) ∧
    (apiSubmissions [{ id := 1, created_at := 5 }, { id := 2, created_at := 9 }]
        (some ("1".data))).length ≤ 500 ∧
    apiSubmissions [{ id := 1, created_at := 5 }, { id := 2, created_at := 9 }]
        (some ("-7".data)) =
      newestFirst [{ id := 1, created_at := 5 }, { id := 2, created_at := 9 }] := by
  refine ⟨(submissions_sorted_capped _ (some ("1".data))).1,
    (submissions_sorted_capped _ (some ("1".data))).2.1 (by decide),
    (submissions_sorted_capped _ (some ("-7".data))).2.2 (by decide)⟩

/-! ## C1: directory grouping — association-list and step lemmas -/

theorem alookup_append_single_self (m : List (Str × β)) (k : Str) (v : β)
    (h : alookup m k = none) : alookup (m ++ [(k, v)]) k = some v := by
  induction m with
  | nil => simp [alookup]
  | cons p rest ih =>
      obtain ⟨k0, v0⟩ := p
      by_cases hk : k0 = k
      · simp [alookup, hk] at h
      · have h2 : alookup rest k = none := by
          simpa [alookup, hk] using h
        simpa [alookup, hk] using ih h2

theorem alookup_append_single_ne (m : List (Str × β)) (k x : Str) (v : β)
    (hx : x ≠ k) : alookup (m ++ [(k, v)]) x = alookup m x := by
  induction m with
  | nil => simp [alookup, Ne.symm hx]
  | cons p rest ih =>
      obtain ⟨k0, v0⟩ := p
      by_cases hk : k0 = x <;> simp [alookup, hk, ih]

theorem alookup_bumpCity_self (m : List (Str × CityEntry)) (city ind : Str)
    (c : Company) :
    alookup (bumpCity m city ind c) city =
      (alookup m city).map (fun e =>
        { count := e.count + 1,
          industries := pushIndustry e.industries ind c }) := by
  induction m with
  | nil => simp [bumpCity, alookup]
  | cons p rest ih =>
      obtain ⟨k, e⟩ := p
      by_cases hk : k = city
      · subst hk
        simp [bumpCity, alookup]
      · simp only [bumpCity, if_neg hk, alookup, ih]

theorem alookup_bumpCity_ne (m : List (Str × CityEntry)) (city ind x : Str)
    (c : Company) (hx : x ≠ city) :
    alookup (bumpCity m city ind c) x = alookup m x := by
  induction m with
  | nil => simp [bumpCity, alookup]
  | cons p rest ih =>
      obtain ⟨k, e⟩ := p
      by_cases hk : k = city
      · subst hk
        simp only [bumpCity, if_pos rfl, alookup, if_neg (Ne.symm hx)]
      · simp only [bumpCity, if_neg hk, alookup, ih]

theorem isSome_alookup_bumpCity (m : List (Str × CityEntry)) (city ind x : Str)
    (c : Company) :
    (alookup (bumpCity m city ind c) x).isSome = (alookup m x).isSome := by
  by_cases hx : x = city
  · subst hx
    rw [alookup_bumpCity_self]
    cases alookup m x <;> simp
  · rw [alookup_bumpCity_ne m city ind x c hx]

/-- One loop iteration adds exactly one to the stepped city's count and
leaves every other count unchanged. -/
theorem groupStep_count (acc : GroupAcc) (c : Company) (x : Str) :
    cityCount (groupStep acc c) x =
      cityCount acc x + (if effCity c = x then 1 else 0) := by
  unfold groupStep cityCount
  by_cases hseen : (alookup acc.map (effCity c)).isSome
  · simp only [hseen, if_pos]
    by_cases hx : x = effCity c
    · subst hx
      rw [alookup_bumpCity_self]
      obtain ⟨e, he⟩ := Option.isSome_iff_exists.mp hseen
      simp [he]
    · rw [alookup_bumpCity_ne _ _ _ _ _ hx]
      simp [Ne.symm hx]
  · simp only [hseen, if_neg, Bool.false_eq_true, if_false]
    have hnone : alookup acc.map (effCity c) = none := by
      cases h : alookup acc.map (effCity c)
      · rfl
      · rw [h] at hseen; simp at hseen
    by_cases hx : x = effCity c
    · subst hx
      rw [alookup_bumpCity_self, alookup_append_single_self _ _ _ hnone]
      simp [hnone]
    · rw [alookup_bumpCity_ne _ _ _ _ _ hx,
        alookup_append_single_ne _ _ _ _ hx]
      simp [Ne.symm hx]

theorem foldl_groupStep_count (cs : List Company) (acc : GroupAcc) (x : Str) :
    cityCount (List.foldl groupStep acc cs) x =
      cityCount acc x + (cs.map effCity).count x := by
  induction cs generalizing acc with
  | nil => simp
  | cons c rest ih =>
      rw [List.foldl_cons, ih, groupStep_count]
      by_cases hc : effCity c = x
      · simp [hc, List.count_cons]
        omega
      · simp [hc, List.count_cons]

/-- The grouping loop extends `cityOrder` with exactly the unseen cities in
first-occurrence order, and the keys of `cityMap` are exactly the members
of `cityOrder`. -/
theorem foldl_groupStep_order (cs : List Company) (acc : GroupAcc)
    (hinv : ∀ x, (alookup acc.map x).isSome ↔ x ∈ acc.order) :
    (List.foldl groupStep acc cs).order =
      acc.order ++ firstSeenGo acc.order (cs.map effCity) ∧
    (∀ x, (alookup (List.foldl groupStep acc cs).map x).isSome ↔
      x ∈ (List.foldl groupStep acc cs).order) := by
  induction cs generalizing acc with
  | nil => exact ⟨by simp [firstSeenGo], hinv⟩
  | cons c rest ih =>
      rw [List.foldl_cons]
      by_cases hseen : (alookup acc.map (effCity c)).isSome = true
      · have hmem : effCity c ∈ acc.order := (hinv _).mp hseen
        have hstep : (groupStep acc c).order = acc.order := by
          unfold groupStep
          simp [hseen]
        have hmap : (groupStep acc c).map =
            bumpCity acc.map (effCity c) (effIndustry c) c := by
          unfold groupStep
          simp [hseen]
        have hinv' : ∀ x, (alookup (groupStep acc c).map x).isSome ↔
            x ∈ (groupStep acc c).order := by
          intro x
          rw [hmap, hstep, isSome_alookup_bumpCity]
          exact hinv x
        obtain ⟨ho, hi⟩ := ih (groupStep acc c) hinv'
        refine ⟨?_, hi⟩
        rw [ho, hstep]
        simp [firstSeenGo, hmem]
      · have hmem : effCity c ∉ acc.order := fun hm => hseen ((hinv _).mpr hm)
        have hnone : alookup acc.map (effCity c) = none := by
          cases h : alookup acc.map (effCity c)
          · rfl
          · rw [h] at hseen
            simp at hseen
        have hstep : (groupStep acc c).order = acc.order ++ [effCity c] := by
          unfold groupStep
          simp [hseen]
        have hmap : (groupStep acc c).map =
            bumpCity (acc.map ++ [(effCity c, { count := 0, industries := [] })])
              (effCity c) (effIndustry c) c := by
          unfold groupStep
          simp [hseen]
        have hinv' : ∀ x, (alookup (groupStep acc c).map x).isSome ↔
            x ∈ (groupStep acc c).order := by
          intro x
          rw [hmap, hstep, isSome_alookup_bumpCity]
          by_cases hx : x = effCity c
          · subst hx
            rw [alookup_append_single_self _ _ _ hnone]
            simp
          · rw [alookup_append_single_ne _ _ _ _ hx]
            rw [hinv x]
            simp [List.mem_append, hx]
        obtain ⟨ho, hi⟩ := ih (groupStep acc c) hinv'
        refine ⟨?_, hi⟩
        rw [ho, hstep]
        simp [firstSeenGo, hmem, List.append_assoc]

theorem groupCompanies_order (companies : List Company) :
    (groupCompanies companies).order = firstSeen (companies.map effCity) := by
  have h := foldl_groupStep_order companies ⟨[], []⟩ (by
    intro x
    simp [alookup])
  simpa [groupCompanies, firstSeen] using h.1

theorem groupCompanies_count (companies : List Company) (x : Str) :
    cityCount (groupCompanies companies) x =
      (companies.map effCity).count x := by
  have h := foldl_groupStep_count companies ⟨[], []⟩ x
  simpa [cityCount, alookup] using h

theorem firstSeenGo_mem (xs : List Str) (seen : List Str) (x : Str) :
    x ∈ firstSeenGo seen xs ↔ x ∈ xs ∧ x ∉ seen := by
  induction xs generalizing seen with
  | nil => simp [firstSeenGo]
  | cons y ys ih =>
      simp only [firstSeenGo]
      by_cases hy : y ∈ seen
      · rw [if_pos hy, ih]
        simp only [List.mem_cons]
        constructor
        · rintro ⟨h1, h2⟩
          exact ⟨Or.inr h1, h2⟩
        · rintro ⟨h1 | h1, h2⟩
          · subst h1
            exact absurd hy h2
          · exact ⟨h1, h2⟩
      · rw [if_neg hy]
        simp only [List.mem_cons, ih (seen ++ [y])]
        constructor
        · rintro (rfl | ⟨h1, h2⟩)
          · exact ⟨Or.inl rfl, hy⟩
          · refine ⟨Or.inr h1, fun hs => h2 ?_⟩
            simp [hs]
        · rintro ⟨h1 | h1, h2⟩
          · exact Or.inl h1
          · by_cases hxy : x = y
            · exact Or.inl hxy
            · refine Or.inr ⟨h1, fun hs => ?_⟩
              simp only [List.mem_append, List.mem_singleton] at hs
              rcases hs with hs | hs
              · exact h2 hs
              · exact hxy hs

theorem firstSeenGo_nodup (xs seen : List Str) :
    (firstSeenGo seen xs).Nodup := by
  induction xs generalizing seen with
  | nil => simp [firstSeenGo]
  | cons y ys ih =>
      simp only [firstSeenGo]
      by_cases hy : y ∈ seen
      · rw [if_pos hy]
        exact ih seen
      · rw [if_neg hy]
        refine List.nodup_cons.mpr ⟨?_, ih _⟩
        intro hmem
        have h := (firstSeenGo_mem ys (seen ++ [y]) y).mp hmem
        exact h.2 (by simp)

theorem filter_length_split (l : List Str) (p : Str → Bool) (x : Str)
    (hx : p x = true) :
    (l.filter p).length =
      l.count x + (l.filter (fun y => p y && !(y == x))).length := by
  induction l with
  | nil => simp
  | cons z zs ih =>
      have hfp : (List.filter p (z :: zs)).length =
          (if p z then 1 else 0) + (List.filter p zs).length := by
        rw [List.filter_cons]
        by_cases h : p z <;> simp [h] <;> omega
      have hfq : (List.filter (fun y => p y && !(y == x)) (z :: zs)).length =
          (if p z && !(z == x) then 1 else 0) +
            (List.filter (fun y => p y && !(y == x)) zs).length := by
        rw [List.filter_cons]
        by_cases h : (p z && !(z == x)) = true <;> simp [h] <;> omega
      have hcc : List.count x (z :: zs) =
          List.count x zs + (if z = x then 1 else 0) := by
        by_cases h : z = x
        · subst h
          simp [List.count_cons]
        · simp [List.count_cons, h]
      rw [hfp, hfq, hcc, ih]
      by_cases hz : z = x
      · subst hz
        simp only [hx, if_true, beq_self_eq_true, Bool.not_true,
          Bool.and_false, Bool.false_eq_true, if_false, if_pos rfl]
        omega
      · have hb : (z == x) = false := by
          simp [hz]
        simp only [hb, Bool.not_false, Bool.and_true, if_neg hz]
        by_cases hp : p z = true <;> simp [hp] <;> omega

theorem firstSeenGo_sum_counts (xs : List Str) (seen : List Str) :
    ((firstSeenGo seen xs).map (fun c => xs.count c)).sum =
      (xs.filter (fun x => decide (x ∉ seen))).length := by
  induction xs generalizing seen with
  | nil => simp [firstSeenGo]
  | cons y ys ih =>
      simp only [firstSeenGo]
      by_cases hy : y ∈ seen
      · rw [if_pos hy]
        have hmapeq : (firstSeenGo seen ys).map (fun c => (y :: ys).count c) =
            (firstSeenGo seen ys).map (fun c => ys.count c) := by
          apply List.map_congr_left
          intro c hc
          have hcs := (firstSeenGo_mem ys seen c).mp hc
          have hcy : c ≠ y := fun h => hcs.2 (h ▸ hy)
          exact List.count_cons_of_ne hcy ys
        rw [hmapeq, ih]
        simp [List.filter_cons, hy]
      · rw [if_neg hy]
        simp only [List.map_cons, List.sum_cons]
        have hmapeq : (firstSeenGo (seen ++ [y]) ys).map
              (fun c => (y :: ys).count c) =
            (firstSeenGo (seen ++ [y]) ys).map (fun c => ys.count c) := by
          apply List.map_congr_left
          intro c hc
          have hcs := (firstSeenGo_mem ys (seen ++ [y]) c).mp hc
          have hcy : c ≠ y := fun h => hcs.2 (by simp [h])
          exact List.count_cons_of_ne hcy ys
        have hcount : (y :: ys).count y = ys.count y + 1 := by
          simp [List.count_cons]
        rw [hmapeq, ih, hcount]
        have hpred : ys.filter (fun z => decide (z ∉ seen ++ [y])) =
            ys.filter (fun z => decide (z ∉ seen) && !(z == y)) := by
          apply List.filter_congr
          intro z _
          by_cases h1 : z ∈ seen <;> by_cases h2 : z = y <;>
            simp [h1, h2]
        rw [hpred]
        have hsplit : (ys.filter (fun z => decide (z ∉ seen))).length =
            ys.count y +
              (ys.filter (fun z => decide (z ∉ seen) && !(z == y))).length :=
          filter_length_split ys (fun z => decide (z ∉ seen)) y (by simp [hy])
        rw [List.filter_cons]
        have hdy : decide (y ∉ seen) = true := by simp [hy]
        simp only [hdy, if_true, List.length_cons]
        omega


/-! ## C1: the pinned-city comparison sort -/

theorem sortByLe_perm (le : β → β → Bool) (l : List β) :
    (sortByLe le l).Perm l := by
  rw [sortByLe_eq_insertionSort]
  exact List.perm_insertionSort _ l

theorem nodup_idxOf_pairwise (l : List Str) (h : l.Nodup) :
    List.Pairwise (fun a b => idxOf l a < idxOf l b) l := by
  induction l with
  | nil => constructor
  | cons x xs ih =>
      obtain ⟨hx, hnd⟩ := List.nodup_cons.mp h
      constructor
      · intro y hy
        have hxy : x ≠ y := fun hEq => hx (hEq ▸ hy)
        have h0 : idxOf (x :: xs) x = 0 := by
          simp [idxOf]
        have hy0 : idxOf (x :: xs) y = idxOf xs y + 1 := by
          simp [idxOf, hxy]
        omega
      · refine List.Pairwise.imp_of_mem ?_ (ih hnd)
        intro a b ha hb hab
        have hxa : x ≠ a := fun hEq => hx (hEq ▸ ha)
        have hxb : x ≠ b := fun hEq => hx (hEq ▸ hb)
        simp only [idxOf, if_neg hxa, if_neg hxb]
        omega

theorem insertSorted_front (le : Str → Str → Bool) (x : Str) (l : List Str)
    (h : ∀ y ∈ l, le x y = true) : insertSorted le x l = x :: l := by
  cases l with
  | nil => rfl
  | cons y ys => simp [insertSorted, h y (List.mem_cons_self y ys)]

theorem insertSorted_skip (le : Str → Str → Bool) (x y : Str) (ys : List Str)
    (h : le x y = false) :
    insertSorted le x (y :: ys) = y :: insertSorted le x ys := by
  simp [insertSorted, h]

theorem pinnedArrange_subset (l : List Str) (y : Str)
    (h : y ∈ pinnedArrange l) : y ∈ l := by
  unfold pinnedArrange at h
  rcases List.mem_append.mp h with h1 | h1
  · rcases List.mem_append.mp h1 with h2 | h2
    · by_cases hm : mexCity ∈ l
      · rw [if_pos hm] at h2
        rw [List.mem_singleton.mp h2]
        exact hm
      · rw [if_neg hm] at h2
        simp at h2
    · by_cases hm : mtyCity ∈ l
      · rw [if_pos hm] at h2
        rw [List.mem_singleton.mp h2]
        exact hm
      · rw [if_neg hm] at h2
        simp at h2
  · exact List.mem_of_mem_filter h1

/-- The city comparator sorts any idx-increasing duplicate-free list into
the pinned arrangement: `墨西哥城` first when present, then `蒙特雷` when
present, then the remaining cities in their given order.  (The comparator
is a strict total order on such a list, so this is the unique result of
any comparison sort, in particular of `Array.prototype.sort`.) -/
theorem sortByLe_cityLe_pinned (ord : List Str) (l : List Str)
    (h : List.Pairwise (fun a b => idxOf ord a < idxOf ord b) l) :
    sortByLe (cityLe ord) l = pinnedArrange l := by
  induction l with
  | nil => rfl
  | cons x xs ih =>
      obtain ⟨hhead, htail⟩ := List.pairwise_cons.mp h
      have hstep : sortByLe (cityLe ord) (x :: xs) =
          insertSorted (cityLe ord) x (sortByLe (cityLe ord) xs) := rfl
      rw [hstep, ih htail]
      have hnotin : x ∉ xs := fun hm => by
        have := hhead x hm
        omega
      by_cases hx1 : x = mexCity
      · subst hx1
        have hfront : ∀ y ∈ pinnedArrange xs, cityLe ord mexCity y = true := by
          intro y hy
          have hymem : y ∈ xs := pinnedArrange_subset xs y hy
          have hyx : y ≠ mexCity := fun hEq => hnotin (hEq ▸ hymem)
          by_cases hy2 : y = mtyCity <;>
            simp [cityLe, cityPri, hy2, hyx,
              (show ¬ mtyCity = mexCity by decide)]
        rw [insertSorted_front _ _ _ hfront]
        have hA : pinnedArrange xs =
            (if mtyCity ∈ xs then [mtyCity] else []) ++
              xs.filter (fun c => !(c = mexCity || c = mtyCity)) := by
          unfold pinnedArrange
          rw [if_neg hnotin]
          simp
        have hB : pinnedArrange (mexCity :: xs) =
            mexCity :: ((if mtyCity ∈ xs then [mtyCity] else []) ++
              xs.filter (fun c => !(c = mexCity || c = mtyCity))) := by
          unfold pinnedArrange
          rw [if_pos (List.mem_cons_self _ _)]
          have h1 : (mtyCity ∈ mexCity :: xs) ↔ (mtyCity ∈ xs) := by
            simp [List.mem_cons, (show ¬ mtyCity = mexCity by decide)]
          have h2 : (mexCity :: xs).filter
              (fun c => !(c = mexCity || c = mtyCity)) =
              xs.filter (fun c => !(c = mexCity || c = mtyCity)) := by
            simp [List.filter_cons]
          by_cases hm : mtyCity ∈ xs
          · rw [if_pos (h1.mpr hm), h2]
            simp [hm]
          · rw [if_neg (fun hh => hm (h1.mp hh)), h2]
            simp [hm]
        rw [hA, hB]
      · by_cases hx2 : x = mtyCity
        · subst hx2
          have hty : ∀ y ∈ xs.filter
              (fun c => !(c = mexCity || c = mtyCity)),
              cityLe ord mtyCity y = true := by
            intro y hy
            have hcond := List.of_mem_filter hy
            have hy1 : y ≠ mexCity := by
              intro hEq
              rw [hEq] at hcond
              simp at hcond
            have hy2 : y ≠ mtyCity := by
              intro hEq
              rw [hEq] at hcond
              simp at hcond
            simp [cityLe, cityPri, hy1, hy2,
              (show ¬ mtyCity = mexCity by decide)]
          have hB : pinnedArrange (mtyCity :: xs) =
              (if mexCity ∈ xs then [mexCity] else []) ++
                (mtyCity ::
                  xs.filter (fun c => !(c = mexCity || c = mtyCity))) := by
            unfold pinnedArrange
            rw [if_pos (List.mem_cons_self _ _)]
            have h1 : (mexCity ∈ mtyCity :: xs) ↔ (mexCity ∈ xs) := by
              simp [List.mem_cons, (show ¬ mexCity = mtyCity by decide)]
            have h2 : (mtyCity :: xs).filter
                (fun c => !(c = mexCity || c = mtyCity)) =
                xs.filter (fun c => !(c = mexCity || c = mtyCity)) := by
              simp [List.filter_cons]
            by_cases hm : mexCity ∈ xs
            · rw [if_pos (h1.mpr hm), h2]
              simp [hm]
            · rw [if_neg (fun hh => hm (h1.mp hh)), h2]
              simp [hm]
          by_cases hmex : mexCity ∈ xs
          · have hpx : pinnedArrange xs = mexCity ::
                xs.filter (fun c => !(c = mexCity || c = mtyCity)) := by
              unfold pinnedArrange
              rw [if_pos hmex, if_neg hnotin]
              simp
            rw [hpx, insertSorted_skip _ _ _ _
                (by simp [cityLe, cityPri, (show ¬ mtyCity = mexCity by decide)]),
              insertSorted_front _ _ _ hty, hB, if_pos hmex]
            simp
          · have hpx : pinnedArrange xs =
                xs.filter (fun c => !(c = mexCity || c = mtyCity)) := by
              unfold pinnedArrange
              rw [if_neg hmex, if_neg hnotin]
              simp
            rw [hpx, insertSorted_front _ _ _ hty, hB, if_neg hmex]
            simp
        · have hprix : cityPri x = 2 := by
            simp [cityPri, hx1, hx2]
          have hprimex : cityPri mexCity = 0 := by
            simp [cityPri]
          have hprimty : cityPri mtyCity = 1 := by
            simp [cityPri, (show ¬ mtyCity = mexCity by decide)]
          have hskipmex : cityLe ord x mexCity = false := by
            simp [cityLe, hprix, hprimex]
          have hskipmty : cityLe ord x mtyCity = false := by
            simp [cityLe, hprix, hprimty]
          have hfrontf : ∀ y ∈ xs.filter
              (fun c => !(c = mexCity || c = mtyCity)),
              cityLe ord x y = true := by
            intro y hy
            have hymem := List.mem_of_mem_filter hy
            have hcond := List.of_mem_filter hy
            have hy1 : y ≠ mexCity := by
              intro hEq
              rw [hEq] at hcond
              simp at hcond
            have hy2 : y ≠ mtyCity := by
              intro hEq
              rw [hEq] at hcond
              simp at hcond
            have hpriy : cityPri y = 2 := by
              simp [cityPri, hy1, hy2]
            have hidx := hhead y hymem
            simp [cityLe, hprix, hpriy, Nat.le_of_lt hidx]
          have hfilter : (x :: xs).filter
              (fun c => !(c = mexCity || c = mtyCity)) =
              x :: xs.filter (fun c => !(c = mexCity || c = mtyCity)) := by
            simp [List.filter_cons, hx1, hx2]
          have hmemmex : (mexCity ∈ x :: xs) ↔ (mexCity ∈ xs) := by
            simp [List.mem_cons, Ne.symm hx1]
          have hmemmty : (mtyCity ∈ x :: xs) ↔ (mtyCity ∈ xs) := by
            simp [List.mem_cons, Ne.symm hx2]
          by_cases hmex : mexCity ∈ xs <;> by_cases hmty : mtyCity ∈ xs
          · have hpx : pinnedArrange xs = mexCity :: mtyCity ::
                xs.filter (fun c => !(c = mexCity || c = mtyCity)) := by
              unfold pinnedArrange
              rw [if_pos hmex, if_pos hmty]
              simp
            rw [hpx, insertSorted_skip _ _ _ _ hskipmex,
              insertSorted_skip _ _ _ _ hskipmty,
              insertSorted_front _ _ _ hfrontf]
            unfold pinnedArrange
            rw [if_pos (hmemmex.mpr hmex), if_pos (hmemmty.mpr hmty), hfilter]
            simp
          · have hpx : pinnedArrange xs = mexCity ::
                xs.filter (fun c => !(c = mexCity || c = mtyCity)) := by
              unfold pinnedArrange
              rw [if_pos hmex, if_neg hmty]
              simp
            rw [hpx, insertSorted_skip _ _ _ _ hskipmex,
              insertSorted_front _ _ _ hfrontf]
            unfold pinnedArrange
            rw [if_pos (hmemmex.mpr hmex),
              if_neg (fun hh => hmty (hmemmty.mp hh)), hfilter]
            simp
          · have hpx : pinnedArrange xs = mtyCity ::
                xs.filter (fun c => !(c = mexCity || c = mtyCity)) := by
              unfold pinnedArrange
              rw [if_neg hmex, if_pos hmty]
              simp
            rw [hpx, insertSorted_skip _ _ _ _ hskipmty,
              insertSorted_front _ _ _ hfrontf]
            unfold pinnedArrange
            rw [if_neg (fun hh => hmex (hmemmex.mp hh)),
              if_pos (hmemmty.mpr hmty), hfilter]
            simp
          · have hpx : pinnedArrange xs =
                xs.filter (fun c => !(c = mexCity || c = mtyCity)) := by
              unfold pinnedArrange
              rw [if_neg hmex, if_neg hmty]
              simp
            rw [hpx, insertSorted_front _ _ _ hfrontf]
            unfold pinnedArrange
            rw [if_neg (fun hh => hmex (hmemmex.mp hh)),
              if_neg (fun hh => hmty (hmemmty.mp hh)), hfilter]
            simp


theorem orderedCitiesOf_eq_pinned (companies : List Company) :
    orderedCitiesOf companies =
      pinnedArrange (groupCompanies companies).order := by
  have hnodup : (groupCompanies companies).order.Nodup := by
    rw [groupCompanies_order]
    exact firstSeenGo_nodup _ _
  exact sortByLe_cityLe_pinned (groupCompanies companies).order
    (groupCompanies companies).order (nodup_idxOf_pairwise _ hnodup)

theorem orderedCitiesOf_mem (companies : List Company) (city : Str) :
    city ∈ orderedCitiesOf companies ↔ city ∈ companies.map effCity := by
  have hperm : (orderedCitiesOf companies).Perm
      (groupCompanies companies).order :=
    sortByLe_perm _ _
  rw [hperm.mem_iff, groupCompanies_order, firstSeen,
    firstSeenGo_mem]
  simp

/-- C1.  The grouped directory: the navigation is the `全部` pill carrying
the total company count followed by one pill per city in the rendered city
order; that order is the pinned arrangement (`墨西哥城` first and `蒙特雷`
second whenever present, all other cities in order of first occurrence in
the input); `cityOrder` is exactly the first-seen deduplication of the
companies' effective cities (defaulting to `未分类城市`); each rendered
city count equals the number of companies whose effective city is that
city; the rendered cities are exactly the cities occurring in the input;
and the per-city counts sum to the input length. -/
theorem directory_grouping_order_and_counts (companies : List Company)
    (h : companies ≠ []) :
    navEntries companies =
      ("全部".data, companies.length) ::
        (orderedCitiesOf companies).map
          (fun city => (city, cityCount (groupCompanies companies) city)) ∧
    orderedCitiesOf companies =
      pinnedArrange (groupCompanies companies).order ∧
    (groupCompanies companies).order = firstSeen (companies.map effCity) ∧
    (mexCity ∈ companies.map effCity →
      (orderedCitiesOf companies).head? = some mexCity) ∧
    (∀ city, city ∈ orderedCitiesOf companies ↔
      city ∈ companies.map effCity) ∧
    (∀ city, cityCount (groupCompanies companies) city =
      companies.countP (fun comp => effCity comp == city)) ∧
    ((orderedCitiesOf companies).map
        (fun city => cityCount (groupCompanies companies) city)).sum =
      companies.length := by
  refine ⟨rfl, orderedCitiesOf_eq_pinned companies,
    groupCompanies_order companies, ?_, orderedCitiesOf_mem companies, ?_, ?_⟩
  · intro hmem
    have hmo : mexCity ∈ (groupCompanies companies).order := by
      rw [groupCompanies_order, firstSeen, firstSeenGo_mem]
      simp [hmem]
    rw [orderedCitiesOf_eq_pinned companies]
    unfold pinnedArrange
    rw [if_pos hmo]
    rfl
  · intro city
    rw [groupCompanies_count, List.count_eq_countP, List.countP_map]
    rfl
  · have hperm : (orderedCitiesOf companies).Perm
        (groupCompanies companies).order :=
      sortByLe_perm _ _
    rw [(hperm.map (fun city =>
      cityCount (groupCompanies companies) city)).sum_eq]
    have hcongr : ((groupCompanies companies).order.map (fun city =>
        cityCount (groupCompanies companies) city)) =
        ((groupCompanies companies).order.map (fun city =>
          (companies.map effCity).count city)) := by
      apply List.map_congr_left
      intro c _
      exact groupCompanies_count companies c
    rw [hcongr, groupCompanies_order, firstSeen,
      firstSeenGo_sum_counts (companies.map effCity) []]
    simp

/-- Witness for C1 at a concrete three-company list exercising the pinned
ordering, the counts and the total. -/
theorem directory_grouping_order_and_counts_witness :
    navEntries
        [{ city := "瓜达拉哈拉".data }, { city := "墨西哥城".data },
         { city := "瓜达拉哈拉".data }] =
      ("全部".data, 3) ::
        (orderedCitiesOf
            [{ city := "瓜达拉哈拉".data }, { city := "墨西哥城".data },
             { city := "瓜达拉哈拉".data }]).map
          (fun city => (city,
            cityCount (groupCompanies
              [{ city := "瓜达拉哈拉".data }, { city := "墨西哥城".data },
               { city := "瓜达拉哈拉".data }]) city)) ∧
    (orderedCitiesOf
        [{ city := "瓜达拉哈拉".data }, { city := "墨西哥城".data },
         { city := "瓜达拉哈拉".data }]).head? = some mexCity ∧
    ((orderedCitiesOf
        [{ city := "瓜达拉哈拉".data }, { city := "墨西哥城".data },
         { city := "瓜达拉哈拉".data }]).map
      (fun city => cityCount (groupCompanies
        [{ city := "瓜达拉哈拉".data }, { city := "墨西哥城".data },
         { city := "瓜达拉哈拉".data }]) city)).sum = 3 := by
  have h := directory_grouping_order_and_counts
    [{ city := "瓜达拉哈拉".data }, { city := "墨西哥城".data },
     { city := "瓜达拉哈拉".data }] (by decide)
  exact ⟨h.1, h.2.2.2.1 (by decide), h.2.2.2.2.2.2⟩

end MyBill
